import Mathlib

/-!
Verification of the casino card game rule engine.

The data model follows types/gameTypes.ts; the action handlers follow
game-actions.js (src/unnamed/part_001); the validators follow
server/game-logic/validation.js.  The small helper modules
(card-operations.js, algorithms.js, game-state.js) are not part of the
sources, so their functions are modelled from the specification; each such
definition carries a doc comment saying so.
-/

namespace Casino

/-- Card ranks: A, 2–10, J, Q, K (gameTypes.ts stores them as strings). -/
inductive Rank where
  | ace | two | three | four | five | six | seven | eight | nine | ten
  | jack | queen | king
deriving DecidableEq, Repr

/-- The four suits (gameTypes.ts stores them as unicode strings). -/
inductive Suit where
  | spades | hearts | diamonds | clubs
deriving DecidableEq, Repr

/-- A card is a rank and a suit; two cards are equal iff rank and suit match. -/
structure Card where
  rank : Rank
  suit : Suit
deriving DecidableEq, Repr

/-- Origin-zone tag attached to a card while it sits in a temporary staging
stack (the optional source field of gameTypes.ts Card). -/
inductive CardSource where
  | hand | table | opponentCapture | captured
deriving DecidableEq, Repr

/-- A card together with its origin tag, as stored in a temporary stack. -/
structure TaggedCard where
  card : Card
  source : CardSource
deriving DecidableEq, Repr

/-- A permanent build (gameTypes.ts Build). -/
structure BuildData where
  buildId : Nat
  value : Nat
  cards : List Card
  owner : Nat
  isExtendable : Bool
deriving DecidableEq, Repr

/-- A temporary staging stack (gameTypes.ts TemporaryStack). -/
structure StackData where
  stackId : Nat
  cards : List TaggedCard
  owner : Nat
deriving DecidableEq, Repr

/-- A table entity: loose card, build, or temporary stack
(gameTypes.ts TableEntity). -/
inductive TableEntity where
  | loose (c : Card)
  | build (b : BuildData)
  | stack (s : StackData)
deriving DecidableEq, Repr

/-- The game state (gameTypes.ts GameState).  The two player hands and the
two capture piles are separate fields; handOf and capsOf perform the
index-0/1 access that the JavaScript does with playerHands[p]. -/
structure GameState where
  currentPlayer : Nat
  hand0 : List Card
  hand1 : List Card
  tableCards : List TableEntity
  captures0 : List (List Card)
  captures1 : List (List Card)
  deck : List Card
  round : Nat
  lastCapturer : Option Nat
  gameOver : Bool
deriving DecidableEq, Repr

/-- Hand of player p (playerHands[p]). -/
def handOf (s : GameState) (p : Nat) : List Card :=
  if p == 0 then s.hand0 else s.hand1

/-- Replace the hand of player p. -/
def setHand (s : GameState) (p : Nat) (h : List Card) : GameState :=
  if p == 0 then { s with hand0 := h } else { s with hand1 := h }

/-- Capture pile of player p (playerCaptures[p]). -/
def capsOf (s : GameState) (p : Nat) : List (List Card) :=
  if p == 0 then s.captures0 else s.captures1

/-- Replace the capture pile of player p. -/
def setCaps (s : GameState) (p : Nat) (c : List (List Card)) : GameState :=
  if p == 0 then { s with captures0 := c } else { s with captures1 := c }

/-- Modelled from the spec (card-operations.js is absent from src):
rank-to-numeric-value map, A=1 through 10=10; face cards have no numeric
build/capture value and are modelled as 0. -/
def rankValue : Rank → Nat
  | .ace => 1
  | .two => 2
  | .three => 3
  | .four => 4
  | .five => 5
  | .six => 6
  | .seven => 7
  | .eight => 8
  | .nine => 9
  | .ten => 10
  | .jack => 0
  | .queen => 0
  | .king => 0

/-- Modelled from the spec (card-operations.js is absent from src):
sum of the rank values of a list of cards. -/
def calculateCardSum (cards : List Card) : Nat :=
  (cards.map (fun c => rankValue c.rank)).sum

/-- Sum of the rank values of a list of tagged cards (the JavaScript
calculateCardSum is also applied to stack members, whose extra source
property it ignores). -/
def calculateTaggedSum (cards : List TaggedCard) : Nat :=
  (cards.map (fun c => rankValue c.card.rank)).sum

/-- Equality test by rank and suit, as every JavaScript comparison
(c.rank === d.rank && c.suit === d.suit) does. -/
def sameCard (a b : Card) : Bool :=
  a.rank == b.rank && a.suit == b.suit

/-- Modelled from the spec (card-operations.js is absent from src):
remove the first card of the hand matching the given card by rank and suit;
returns the remaining hand and the removed card, or none when absent. -/
def removeFirstCard : List Card → Card → Option (List Card × Card)
  | [], _ => none
  | c :: rest, target =>
    if sameCard c target then some (rest, c)
    else
      match removeFirstCard rest target with
      | none => none
      | some (rest2, removed) => some (c :: rest2, removed)

/-- Identity key used by every table-removal comparison in the sources:
loose cards compare by rank and suit, builds by buildId, stacks by stackId. -/
inductive EntityKey where
  | loose (c : Card)
  | build (id : Nat)
  | stack (id : Nat)
deriving DecidableEq, Repr

/-- The identity key of a table entity. -/
def entityKey : TableEntity → EntityKey
  | .loose c => .loose c
  | .build b => .build b.buildId
  | .stack st => .stack st.stackId

/-- The comparison performed by the table-removal helpers and by the inline
filter in handleCapture: same variant and same key. -/
def matchesEntity (t i : TableEntity) : Bool :=
  entityKey t == entityKey i

/-- Modelled from the spec (card-operations.js is absent from src):
remove from the table every entity matching one of the given items, using the
same comparisons as the inline filter in handleCapture (loose card by rank
and suit, build by buildId, stack by stackId). -/
def removeCardsFromTable (table items : List TableEntity) : List TableEntity :=
  table.filter (fun t => !(items.any (fun i => matchesEntity t i)))

/-- Modelled from the spec (card-operations.js is absent from src): builds
carry an opaque fresh id; its value is irrelevant to every property proved
in this development, so it is modelled as a constant. -/
def generateBuildId : Nat := 0

/-- Modelled from the spec (the sources create stack ids from Date.now()):
an opaque fresh id, irrelevant to every property proved here. -/
def generateStackId : Nat := 0

/-- Modelled from the spec (game-state.js is absent from src):
advance the turn, currentPlayer := 1 - currentPlayer. -/
def nextPlayer (s : GameState) : GameState :=
  { s with currentPlayer := 1 - s.currentPlayer }

/-- Modelled from the spec (card-operations.js is absent from src):
descending sort by rank value; only the resulting arrangement, never the
multiset of cards, depends on this helper. -/
def sortCardsByRank (cards : List Card) : List Card :=
  cards.mergeSort (fun a b => rankValue b.rank ≤ rankValue a.rank)

/-- Modelled from the spec (card-operations.js is absent from src): the
ordered capture group formed by one capture action: the captured table
cards, the opponent capture card when one was used, and the capturing card. -/
def createCaptureStack (capturing : Card) (captured : List Card)
    (opponentCard : Option Card) : List Card :=
  captured ++ opponentCard.toList ++ [capturing]

/-- One backtracking step of the partition search: cards still unplaced,
and the amount the currently open group still needs (invariant: 1 ≤ need ≤
target).  Picks any unplaced card that fits, closing the group and opening
a new one when it reaches the target exactly.  The first argument is fuel:
every step consumes exactly one card, so cards.length + 1 steps always
suffice. -/
def partitionAux (target : Nat) : Nat → List Nat → Nat → Bool
  | 0, _, _ => false
  | _ + 1, [], need => need == target
  | fuel + 1, v :: vs, need =>
    (v :: vs).any fun c =>
      c ≤ need && partitionAux target fuel ((v :: vs).erase c)
        (if need - c == 0 then target else need - c)

/-- Modelled from the spec (algorithms.js is absent from src), contract of
section 4.1: whether the card values can be partitioned into one or more
non-empty disjoint groups each summing exactly to target; empty input and
target 0 give false. -/
def canPartitionIntoSums (cards : List Card) (target : Nat) : Bool :=
  if target == 0 then false
  else
    match cards with
    | [] => false
    | _ =>
      partitionAux target (cards.length + 1)
        (cards.map (fun c => rankValue c.rank)) target

/-- Result of a validator (validation.js): an allow/deny flag and a
human-readable reason. -/
structure VResult where
  valid : Bool
  message : String := ""
deriving Repr

/-- validation.js hasActiveBuild: whether the player owns a permanent build
on the table (temporary stacks never count; the isExtendable-defined check
of the JavaScript holds for every build in this typed model). -/
def hasActiveBuild (tableCards : List TableEntity) (playerIndex : Nat) : Bool :=
  tableCards.any fun item =>
    match item with
    | .build b => b.owner == playerIndex
    | _ => false

/-- validation.js validateBuild, lines 33-72. -/
def validateBuild (playerHand : List Card) (playerCard : Card)
    (buildValue : Nat) (tableCards : List TableEntity) (playerIndex : Nat) :
    VResult :=
  if hasActiveBuild tableCards playerIndex then
    { valid := false
      message := "You can only have one active build at a time." }
  else
    let canCaptureBuild := playerHand.any fun c =>
      rankValue c.rank == buildValue &&
        (c.rank != playerCard.rank || c.suit != playerCard.suit)
    if !canCaptureBuild then
      { valid := false
        message := "Cannot build. You do not have a card of this value to capture it later." }
    else
      let opponentHasSameBuild := tableCards.any fun item =>
        match item with
        | .build b => b.owner != playerIndex && b.value == buildValue
        | _ => false
      if opponentHasSameBuild then
        { valid := false
          message := "You cannot create this build because your opponent already has one." }
      else
        { valid := true }

/-- validation.js validateTrail, lines 120-141. -/
def validateTrail (tableCards : List TableEntity) (_card : Card)
    (playerIndex : Nat) (round : Nat) : VResult :=
  if round == 1 && hasActiveBuild tableCards playerIndex then
    { valid := false
      message := "Cannot trail while you own an active build." }
  else if hasActiveBuild tableCards playerIndex then
    { valid := false
      message := "You can only have one active build at a time." }
  else
    { valid := true }

/-- validation.js validateAddToOpponentBuild, lines 143-177. -/
def validateAddToOpponentBuild (build : BuildData) (playerCard : Card)
    (playerHand : List Card) (tableCards : List TableEntity)
    (playerIndex : Nat) : VResult :=
  if build.owner == playerIndex then
    { valid := false, message := "You cannot use this action on your own build." }
  else if hasActiveBuild tableCards playerIndex then
    { valid := false
      message := "You cannot extend an opponent's build while you have your own active build." }
  else if !build.isExtendable || build.cards.length ≥ 5 then
    { valid := false, message := "This build cannot be extended." }
  else
    let newValue := build.value + rankValue playerCard.rank
    if newValue > 10 then
      { valid := false, message := "Cannot extend build. New value would be over 10." }
    else
      let canCapture := playerHand.any fun c =>
        rankValue c.rank == newValue &&
          (c.rank != playerCard.rank || c.suit != playerCard.suit)
      if !canCapture then
        { valid := false, message := "You must have the capture card in your hand." }
      else
        { valid := true }

/-- validation.js findPossibleBuildsFromStack, lines 322-348: every build
value the staging stack could legally finalize to. -/
def findPossibleBuildsFromStack (stack : StackData) (playerHand : List Card)
    (tableCards : List TableEntity) (currentPlayer : Nat) : List Nat :=
  if hasActiveBuild tableCards currentPlayer then []
  else
    match stack.cards.filter (fun c => c.source == .hand) with
    | [handCardUsed] =>
      let remainingHand := playerHand.filter fun c =>
        c.rank != handCardUsed.card.rank || c.suit != handCardUsed.card.suit
      if remainingHand.isEmpty then []
      else
        let potentialBuildValues :=
          (remainingHand.map (fun c => rankValue c.rank)).dedup
        let cardsToBuildWith := stack.cards.map (fun c => c.card)
        potentialBuildValues.filter fun v =>
          canPartitionIntoSums cardsToBuildWith v
    | _ => []

/-- The member cards of a table entity, origin tags stripped (the JavaScript
keeps the transient source property on stack members; this typed model
separates the tag, which every permanent zone strips). -/
def entityCards : TableEntity → List Card
  | .loose c => [c]
  | .build b => b.cards
  | .stack st => st.cards.map (fun tc => tc.card)

/-- The member cards of a table entity together with their origin tag when
one exists (loose cards and build members carry none); this is what the
flatMap in handleCapture produces. -/
def entityItems : TableEntity → List (Option CardSource × Card)
  | .loose c => [(none, c)]
  | .build b => b.cards.map (fun c => (none, c))
  | .stack st => st.cards.map (fun tc => (some tc.source, tc.card))

/-- game-actions.js handleTrail, lines 7-26. -/
def handleTrail (s : GameState) (card : Card) : GameState :=
  match removeFirstCard (handOf s s.currentPlayer) card with
  | none => s
  | some (updatedHand, cardRemoved) =>
    nextPlayer
      { setHand s s.currentPlayer updatedHand with
        tableCards := s.tableCards ++ [.loose cardRemoved] }

/-- game-actions.js handleBuild, lines 28-86.  The biggerCard/smallerCard
pair of the sum-build form is passed as an optional pair. -/
def handleBuild (s : GameState) (playerCard : Card) (source : CardSource)
    (tableCardsInBuild : List Card) (buildValue : Nat)
    (sumPair : Option (Card × Card)) : GameState :=
  let playerHand := handOf s s.currentPlayer
  let validation :=
    validateBuild playerHand playerCard buildValue s.tableCards s.currentPlayer
  if !validation.valid then s
  else
    let step2 : Option (GameState × List TableEntity) :=
      if source == .table then
        some (s, removeCardsFromTable s.tableCards [.loose playerCard])
      else
        match removeFirstCard playerHand playerCard with
        | none => none
        | some (updatedHand, _) =>
          some (setHand s s.currentPlayer updatedHand, s.tableCards)
    match step2 with
    | none => s
    | some (s2, tempTableCards) =>
      let initialBuildCards :=
        match sumPair with
        | some (bigger, smaller) => [bigger, smaller]
        | none => sortCardsByRank tableCardsInBuild ++ [playerCard]
      let newBuild : BuildData :=
        { buildId := generateBuildId, value := buildValue
          cards := initialBuildCards, owner := s.currentPlayer
          isExtendable := true }
      let finalTableCards :=
        removeCardsFromTable tempTableCards (tableCardsInBuild.map .loose)
          ++ [.build newBuild]
      nextPlayer { s2 with tableCards := finalTableCards }

/-- game-actions.js handleAddToOwnBuild, lines 299-342. -/
def handleAddToOwnBuild (s : GameState) (playerCard : Card)
    (buildToAddTo : BuildData) : GameState :=
  let isReinforce := rankValue playerCard.rank == buildToAddTo.value
  let newBuildValue :=
    if isReinforce then buildToAddTo.value
    else buildToAddTo.value + rankValue playerCard.rank
  let newBuild :=
    { buildToAddTo with
      value := newBuildValue
      cards := buildToAddTo.cards ++ [playerCard]
      isExtendable := !isReinforce }
  let newTableCards :=
    (s.tableCards.filter fun e =>
      match e with
      | .build b => b.buildId != buildToAddTo.buildId
      | _ => true) ++ [.build newBuild]
  match removeFirstCard (handOf s s.currentPlayer) playerCard with
  | none => s
  | some (updatedHand, _) =>
    nextPlayer
      { setHand s s.currentPlayer updatedHand with tableCards := newTableCards }

/-- game-actions.js handleCapture, lines 392-525: the ordinary capture path
(after the implicit add-to-build check of lines 348-390 has fallen
through). -/
def handleCaptureMain (s : GameState) (selectedCard : Card)
    (source : CardSource) (selectedTableCards : List TableEntity)
    (opponentCard : Option Card) : GameState :=
  let isFinalizingStack := selectedTableCards.any fun e =>
    match e with | .stack _ => true | _ => false
  let step1 : Option (GameState × List TableEntity × Card) :=
    if source == .table then
      some (s, removeCardsFromTable s.tableCards [.loose selectedCard],
        selectedCard)
    else
      if isFinalizingStack then some (s, s.tableCards, selectedCard)
      else
        match removeFirstCard (handOf s s.currentPlayer) selectedCard with
        | none => none
        | some (updatedHand, removed) =>
          some (setHand s s.currentPlayer updatedHand, s.tableCards, removed)
  match step1 with
  | none => s
  | some (s1, newTableCards, actualCardUsed) =>
    let finalTableCards := newTableCards.filter fun item =>
      !(selectedTableCards.any fun cap => matchesEntity item cap)
    let opponentIndex := 1 - s.currentPlayer
    let capsAfterOpp :=
      match opponentCard with
      | none => capsOf s1 opponentIndex
      | some oc =>
        ((capsOf s1 opponentIndex).map fun group =>
          group.filter fun c =>
            !(c.rank == oc.rank && c.suit == oc.suit)).filter
          fun group => !group.isEmpty
    let allCapturedItems := selectedTableCards.flatMap entityItems
    let dedupedItems :=
      if isFinalizingStack then
        allCapturedItems.filter fun it =>
          !(it.1 == some CardSource.hand && it.2.rank == selectedCard.rank
            && it.2.suit == selectedCard.suit)
      else allCapturedItems
    let flattenedCapturedCards := dedupedItems.map (fun it => it.2)
    let flattenedCapturedCards :=
      if source == .table then flattenedCapturedCards ++ [actualCardUsed]
      else flattenedCapturedCards
    let capturingCardForStack :=
      if source == .hand then actualCardUsed else selectedCard
    let capturedGroup :=
      createCaptureStack capturingCardForStack flattenedCapturedCards
        opponentCard
    let s2 := setCaps s1 opponentIndex capsAfterOpp
    let s3 :=
      setCaps s2 s.currentPlayer (capsOf s2 s.currentPlayer ++ [capturedGroup])
    nextPlayer
      { s3 with tableCards := finalTableCards
                lastCapturer := some s.currentPlayer }

/-- game-actions.js handleCapture, lines 344-525, starting with the
contextual implicit add-to-build check. -/
def handleCapture (s : GameState) (selectedCard : Card) (source : CardSource)
    (selectedTableCards : List TableEntity)
    (opponentCard : Option Card := none) : GameState :=
  let playerOwnBuild := s.tableCards.find? fun e =>
    match e with | .build b => b.owner == s.currentPlayer | _ => false
  let isTargetingBuild := selectedTableCards.any fun e =>
    match e with | .build _ => true | _ => false
  let implicitBuild : Option BuildData :=
    match playerOwnBuild with
    | some (.build b) =>
      if source == .hand && opponentCard == none && !isTargetingBuild then
        some b
      else none
    | _ => none
  match implicitBuild with
  | some ownBuild =>
    let potentialStackCards :=
      selectedCard :: selectedTableCards.flatMap entityCards
    if canPartitionIntoSums potentialStackCards ownBuild.value then
      match removeFirstCard (handOf s s.currentPlayer) selectedCard with
      | none => s
      | some (updatedHand, _) =>
        let newBuild : BuildData :=
          { buildId := generateBuildId, value := ownBuild.value
            cards := ownBuild.cards ++ potentialStackCards
            owner := s.currentPlayer, isExtendable := false }
        let finalTableCards :=
          removeCardsFromTable s.tableCards
            (.build ownBuild :: selectedTableCards) ++ [.build newBuild]
        nextPlayer
          { setHand s s.currentPlayer updatedHand with
            tableCards := finalTableCards }
    else handleCaptureMain s selectedCard source selectedTableCards opponentCard
  | none => handleCaptureMain s selectedCard source selectedTableCards opponentCard

/-- game-actions.js handleCreateStagingStack, lines 673-715. -/
def handleCreateStagingStack (s : GameState) (handCard tableCard : Card) :
    GameState :=
  let playerAlreadyHasTempStack := s.tableCards.any fun e =>
    match e with | .stack st => st.owner == s.currentPlayer | _ => false
  if playerAlreadyHasTempStack then s
  else
    match s.tableCards.findIdx? (fun e =>
      match e with | .loose c => sameCard c tableCard | _ => false) with
    | none => s
    | some targetIndex =>
      let handValue := rankValue handCard.rank
      let tableValue := rankValue tableCard.rank
      let orderedCards : List TaggedCard :=
        if handValue < tableValue then
          [⟨tableCard, .table⟩, ⟨handCard, .hand⟩]
        else
          [⟨handCard, .hand⟩, ⟨tableCard, .table⟩]
      let newStack : StackData :=
        { stackId := generateStackId, cards := orderedCards
          owner := s.currentPlayer }
      match removeFirstCard (handOf s s.currentPlayer) handCard with
      | none => s
      | some (updatedHand, _) =>
        { setHand s s.currentPlayer updatedHand with
          tableCards := s.tableCards.set targetIndex (.stack newStack) }

/-- game-actions.js handleAddToStagingStack, lines 725-751. -/
def handleAddToStagingStack (s : GameState) (handCard : Card)
    (targetStack : StackData) : GameState :=
  match removeFirstCard (handOf s s.currentPlayer) handCard with
  | none => s
  | some (updatedHand, _) =>
    let newStack :=
      { targetStack with cards := targetStack.cards ++ [⟨handCard, .hand⟩] }
    let stackIndex := s.tableCards.findIdx? fun e =>
      match e with
      | .stack st => st.stackId == targetStack.stackId
      | _ => false
    let newTableCards :=
      match stackIndex with
      | some i => s.tableCards.set i (.stack newStack)
      | none =>
        (s.tableCards.filter fun e =>
          match e with
          | .stack st => st.stackId != targetStack.stackId
          | _ => true) ++ [.stack newStack]
    { setHand s s.currentPlayer updatedHand with tableCards := newTableCards }

/-- The single pass of handleDisbandStagingStack/handleCancelStagingStack
that sorts a stack's cards back by their origin tag: hand-origin cards,
table-or-other-origin cards, opponent-capture-origin cards, each bucket in
stack order. -/
def splitBySource : List TaggedCard → List Card × List Card × List Card
  | [] => ([], [], [])
  | c :: rest =>
    let r := splitBySource rest
    match c.source with
    | .hand => (c.card :: r.1, r.2.1, r.2.2)
    | .opponentCapture => (r.1, r.2.1, c.card :: r.2.2)
    | _ => (r.1, c.card :: r.2.1, r.2.2)

/-- The opponent-capture restoration policy shared by disband and cancel:
append the cards to the opponent's last capture group, creating a new group
only when the opponent has none. -/
def restoreOpponentCaps (caps : List (List Card)) (opponentCards : List Card) :
    List (List Card) :=
  if opponentCards.isEmpty then caps
  else if caps.isEmpty then [opponentCards]
  else caps.dropLast ++ [caps.getLastD [] ++ opponentCards]

/-- The restoration policy as the specification describes it: append to the
last capture group, creating a new group only when there are none; used to
state the cancel/disband theorem. -/
def restoreCapsSpec (caps : List (List Card)) (cards : List Card) :
    List (List Card) :=
  if cards = [] then caps
  else if caps = [] then [cards]
  else caps.dropLast ++ [caps.getLastD [] ++ cards]

/-- game-actions.js handleDisbandStagingStack, lines 760-806. -/
def handleDisbandStagingStack (s : GameState) (stackToDisband : StackData) :
    GameState :=
  let parts := splitBySource stackToDisband.cards
  let handCards := parts.1
  let newLooseCards := parts.2.1
  let opponentCards := parts.2.2
  let s1 :=
    setHand s s.currentPlayer (handOf s s.currentPlayer ++ handCards)
  let opponentIndex := 1 - s.currentPlayer
  let s2 :=
    setCaps s1 opponentIndex
      (restoreOpponentCaps (capsOf s1 opponentIndex) opponentCards)
  let newTableCards :=
    (s.tableCards.filter fun e =>
      match e with
      | .stack st => st.stackId != stackToDisband.stackId
      | _ => true) ++ newLooseCards.map .loose
  nextPlayer { s2 with tableCards := newTableCards }

/-- game-actions.js handleCancelStagingStack, lines 815-869: identical
restoration to disband, but the turn does not end. -/
def handleCancelStagingStack (s : GameState) (stackToCancel : StackData) :
    GameState :=
  let parts := splitBySource stackToCancel.cards
  let handCards := parts.1
  let newLooseCards := parts.2.1
  let opponentCards := parts.2.2
  let s1 :=
    setHand s s.currentPlayer (handOf s s.currentPlayer ++ handCards)
  let opponentIndex := 1 - s.currentPlayer
  let s2 :=
    setCaps s1 opponentIndex
      (restoreOpponentCaps (capsOf s1 opponentIndex) opponentCards)
  let newTableCards :=
    (s.tableCards.filter fun e =>
      match e with
      | .stack st => st.stackId != stackToCancel.stackId
      | _ => true) ++ newLooseCards.map .loose
  { s2 with tableCards := newTableCards }

/-- game-actions.js handleMergeIntoOwnBuild, lines 879-897. -/
def handleMergeIntoOwnBuild (s : GameState) (stack : StackData)
    (targetBuild : BuildData) : GameState :=
  let cardsFromStack := stack.cards.map (fun c => c.card)
  let newBuild := { targetBuild with cards := targetBuild.cards ++ cardsFromStack }
  let newTableCards :=
    removeCardsFromTable s.tableCards [.build targetBuild, .stack stack]
      ++ [.build newBuild]
  { s with tableCards := newTableCards }

/-- game-actions.js handleReinforceBuildWithStack, lines 88-128. -/
def handleReinforceBuildWithStack (s : GameState) (stack : StackData)
    (targetBuild : BuildData) : GameState :=
  let cardsForPartition := stack.cards.map (fun c => c.card)
  let newBuild : BuildData :=
    { buildId := generateBuildId, value := targetBuild.value
      cards := targetBuild.cards ++ cardsForPartition
      owner := s.currentPlayer, isExtendable := false }
  let finalTableCards :=
    removeCardsFromTable s.tableCards [.build targetBuild, .stack stack]
      ++ [.build newBuild]
  nextPlayer { s with tableCards := finalTableCards }

/-- game-actions.js handleReinforceOpponentBuildWithStack, lines 1130-1152:
the build keeps its id, value and owner. -/
def handleReinforceOpponentBuildWithStack (s : GameState) (stack : StackData)
    (opponentBuild : BuildData) : GameState :=
  let cardsFromStack := stack.cards.map (fun c => c.card)
  let newBuild :=
    { opponentBuild with
      cards := opponentBuild.cards ++ cardsFromStack
      isExtendable := false }
  let newTableCards :=
    removeCardsFromTable s.tableCards [.build opponentBuild, .stack stack]
      ++ [.build newBuild]
  { s with tableCards := newTableCards }

/-- The three-way result of handleFinalizeStagingStack: a new game state, an
options list for caller disambiguation, or an error. -/
inductive FinalizeResult where
  | newState (s : GameState)
  | options (possibleBuilds : List Nat) (stack : StackData)
      (handCard : Option TaggedCard)
  | error (message : String)
deriving DecidableEq, Repr

/-- game-actions.js handleFinalizeStagingStack, lines 983-1029. -/
def handleFinalizeStagingStack (s : GameState) (stack : StackData) :
    FinalizeResult :=
  let possibleBuilds :=
    findPossibleBuildsFromStack stack (handOf s s.currentPlayer) s.tableCards
      s.currentPlayer
  if possibleBuilds.isEmpty then
    .error "This stack does not form a valid build with any card in your hand."
  else if possibleBuilds.length > 1 then
    .options possibleBuilds stack
      (stack.cards.find? (fun c => c.source == .hand))
  else
    let buildValue := possibleBuilds.headD 0
    let finalCardsInBuild := stack.cards.map (fun c => c.card)
    let newBuild : BuildData :=
      { buildId := generateBuildId, value := buildValue
        cards := finalCardsInBuild, owner := s.currentPlayer
        isExtendable := true }
    let newTableCards :=
      (s.tableCards.filter fun e =>
        match e with
        | .stack st => st.stackId != stack.stackId
        | _ => true) ++ [.build newBuild]
    .newState (nextPlayer { s with tableCards := newTableCards })

/-- game-actions.js handleCreateBuildWithValue, lines 1038-1063. -/
def handleCreateBuildWithValue (s : GameState) (stack : StackData)
    (buildValue : Nat) : GameState :=
  let initialBuildCards := stack.cards.map (fun c => c.card)
  let newBuild : BuildData :=
    { buildId := generateBuildId, value := buildValue
      cards := initialBuildCards, owner := s.currentPlayer
      isExtendable := true }
  let newTableCards :=
    removeCardsFromTable s.tableCards [.stack stack] ++ [.build newBuild]
  nextPlayer { s with tableCards := newTableCards }

/-- game-actions.js handleStageSingleCardFromHand, lines 1072-1099. -/
def handleStageSingleCardFromHand (s : GameState) (card : Card) : GameState :=
  let playerAlreadyHasTempStack := s.tableCards.any fun e =>
    match e with | .stack st => st.owner == s.currentPlayer | _ => false
  if playerAlreadyHasTempStack then s
  else
    match removeFirstCard (handOf s s.currentPlayer) card with
    | none => s
    | some (updatedHand, _) =>
      let newStack : StackData :=
        { stackId := generateStackId, cards := [⟨card, .hand⟩]
          owner := s.currentPlayer }
      { setHand s s.currentPlayer updatedHand with
        tableCards := s.tableCards ++ [.stack newStack] }

/-- One pop from the end of the deck (Array.prototype.pop). -/
def popCard (d : List Card) : Option (Card × List Card) :=
  match d.getLast? with
  | none => none
  | some c => some (c, d.dropLast)

/-- One iteration of the round-2 dealing loop of startNextRound: one card to
player 0, then one to player 1, each guarded by a non-empty deck. -/
def dealIter (d h0 h1 : List Card) : List Card × List Card × List Card :=
  match popCard d with
  | none => (d, h0, h1)
  | some (c, d1) =>
    match popCard d1 with
    | none => (d1, h0 ++ [c], h1)
    | some (c2, d2) => (d2, h0 ++ [c], h1 ++ [c2])

/-- The ten-iteration dealing loop of startNextRound. -/
def dealLoop : Nat → List Card → List Card → List Card →
    List Card × List Card × List Card
  | 0, d, h0, h1 => (d, h0, h1)
  | n + 1, d, h0, h1 =>
    let r := dealIter d h0 h1
    dealLoop n r.1 r.2.1 r.2.2

/-- game-actions.js startNextRound, lines 532-560. -/
def startNextRound (s : GameState) : GameState :=
  if s.deck.length < 20 then s
  else
    let r := dealLoop 10 s.deck s.hand0 s.hand1
    { s with deck := r.1, hand0 := r.2.1, hand1 := r.2.2, round := 2 }

/-- The flattening used by handleSweep: builds contribute their member
cards, loose cards themselves.  The JavaScript pushes a temporary stack
object itself (not a card) into the capture group, which this typed model
cannot express; the sweep theorem therefore assumes no stack is on the
table, and the stack clause below is never exercised under that
hypothesis. -/
def sweepEntityCards : TableEntity → List Card
  | .build b => b.cards
  | .loose c => [c]
  | .stack st => st.cards.map (fun tc => tc.card)

/-- game-actions.js handleSweep, lines 567-589. -/
def handleSweep (s : GameState) : GameState :=
  match s.lastCapturer with
  | none => s
  | some lastCapturer =>
    if s.tableCards.isEmpty then s
    else
      let flattenedTableCards := s.tableCards.flatMap sweepEntityCards
      let s1 :=
        setCaps s lastCapturer (capsOf s lastCapturer ++ [flattenedTableCards])
      { s1 with tableCards := [] }

/-- Per-player score breakdown (the details objects of calculateScores). -/
structure PlayerScore where
  mostCards : Nat
  mostSpades : Nat
  bigCasino : Nat
  littleCasino : Nat
  aces : Nat
  total : Nat
  cardCount : Nat
  spadeCount : Nat
deriving DecidableEq, Repr

/-- The result of calculateScores: final scores, per-player details, and the
winner (none on a tie). -/
structure ScoreResult where
  scores : Nat × Nat
  details : PlayerScore × PlayerScore
  winner : Option Nat
deriving DecidableEq, Repr

/-- One step of the per-card tally loop of calculateScores: aces increment
a counter, the ten of diamonds sets bigCasino to 2, the two of spades sets
littleCasino to 1. -/
def tallyStep (acc : Nat × Nat × Nat) (c : Card) : Nat × Nat × Nat :=
  (acc.1 + (if c.rank == Rank.ace then 1 else 0),
   if c.rank == Rank.ten && c.suit == Suit.diamonds then 2 else acc.2.1,
   if c.rank == Rank.two && c.suit == Suit.spades then 1 else acc.2.2)

/-- The per-card tally loop of calculateScores (aces, big casino, little
casino). -/
def tallySpecialCards (cards : List Card) : Nat × Nat × Nat :=
  cards.foldl tallyStep (0, 0, 0)

/-- game-actions.js calculateScores, lines 596-653. -/
def calculateScores (captures0 captures1 : List (List Card)) : ScoreResult :=
  let all0 := captures0.flatten
  let all1 := captures1.flatten
  let cardCount0 := all0.length
  let cardCount1 := all1.length
  let spadeCount0 := (all0.filter fun c => c.suit == Suit.spades).length
  let spadeCount1 := (all1.filter fun c => c.suit == Suit.spades).length
  let mostCardsPair :=
    if cardCount0 > cardCount1 then (2, 0)
    else if cardCount1 > cardCount0 then (0, 2)
    else if cardCount0 > 0 && cardCount0 == cardCount1 then (1, 1)
    else ((0 : Nat), (0 : Nat))
  let mostSpadesPair :=
    if spadeCount0 > spadeCount1 then (2, 0)
    else if spadeCount1 > spadeCount0 then (0, 2)
    else if spadeCount0 > 0 && spadeCount0 == spadeCount1 then (1, 1)
    else ((0 : Nat), (0 : Nat))
  let tally0 := tallySpecialCards all0
  let tally1 := tallySpecialCards all1
  let total0 :=
    mostCardsPair.1 + mostSpadesPair.1 + tally0.2.1 + tally0.2.2 + tally0.1
  let total1 :=
    mostCardsPair.2 + mostSpadesPair.2 + tally1.2.1 + tally1.2.2 + tally1.1
  { scores := (total0, total1)
    details :=
      ({ mostCards := mostCardsPair.1, mostSpades := mostSpadesPair.1
         bigCasino := tally0.2.1, littleCasino := tally0.2.2
         aces := tally0.1, total := total0
         cardCount := cardCount0, spadeCount := spadeCount0 },
       { mostCards := mostCardsPair.2, mostSpades := mostSpadesPair.2
         bigCasino := tally1.2.1, littleCasino := tally1.2.2
         aces := tally1.1, total := total1
         cardCount := cardCount1, spadeCount := spadeCount1 })
    winner :=
      if total0 > total1 then some 0
      else if total1 > total0 then some 1
      else none }

/-- Modelled from the spec (the dispatching caller useGameActions.js is not
under src): a trail request is converted in round 2 into a single-card
staging stack via handleStageSingleCardFromHand; otherwise it is gated by
validateTrail and executed by handleTrail. -/
def trailAction (s : GameState) (card : Card) : GameState :=
  if s.round == 2 then handleStageSingleCardFromHand s card
  else if (validateTrail s.tableCards card s.currentPlayer s.round).valid then
    handleTrail s card
  else s

/-- The outcome of a finalize request, as seen by the caller. -/
inductive FinalizeOutcome where
  | applied (s : GameState)
  | needsChoice (possibleBuilds : List Nat)
  | disbanded (s : GameState)
deriving DecidableEq, Repr

/-- Modelled from the spec (the dispatching caller useGameActions.js is not
under src): when handleFinalizeStagingStack reports that no valid
interpretation exists, the caller disbands the stack, returning its cards to
their original zones and ending the turn. -/
def finalizeStagingStackAction (s : GameState) (stack : StackData) :
    FinalizeOutcome :=
  match handleFinalizeStagingStack s stack with
  | .newState s2 => .applied s2
  | .options possibleBuilds _ _ => .needsChoice possibleBuilds
  | .error _ => .disbanded (handleDisbandStagingStack s stack)

/-- Every card of the state, in one list: the two hands, the table (loose
cards, build members, stack members), the two capture piles, and the deck. -/
def stateCardsList (s : GameState) : List Card :=
  s.hand0 ++ s.hand1 ++ s.tableCards.flatMap entityCards
    ++ s.captures0.flatten ++ s.captures1.flatten ++ s.deck

/-- The multiset of every card of the state. -/
def stateCards (s : GameState) : Multiset Card :=
  (stateCardsList s : Multiset Card)

/-- Whether a table entity is a temporary stack. -/
def isStackEntity : TableEntity → Bool
  | .stack _ => true
  | _ => false

/-- Whether a table entity is a permanent build. -/
def isBuildEntity : TableEntity → Bool
  | .build _ => true
  | _ => false

/-- The actions named by the conservation property: trail, build, capture,
the five staging-stack operations, merge, the two stack reinforcements, the
round-2 deal, and the end-of-game sweep. -/
inductive GAction where
  | trail (card : Card)
  | build (card : Card) (source : CardSource) (tableCardsInBuild : List Card)
      (buildValue : Nat) (sumPair : Option (Card × Card))
  | capture (card : Card) (source : CardSource)
      (selected : List TableEntity) (opponentCard : Option Card)
  | createStagingStack (handCard tableCard : Card)
  | addToStagingStack (handCard : Card) (target : StackData)
  | cancelStagingStack (stack : StackData)
  | disbandStagingStack (stack : StackData)
  | finalizeStagingStack (stack : StackData)
  | mergeIntoOwnBuild (stack : StackData) (target : BuildData)
  | reinforceBuildWithStack (stack : StackData) (target : BuildData)
  | reinforceOpponentBuildWithStack (stack : StackData) (target : BuildData)
  | roundDeal
  | sweep

/-- Dispatch of an action to its handler.  A finalize that reports options
or an error leaves the state unchanged (the options / error results carry
no state). -/
def step (s : GameState) : GAction → GameState
  | .trail c => handleTrail s c
  | .build c src tcb v sp => handleBuild s c src tcb v sp
  | .capture c src sel oc => handleCapture s c src sel oc
  | .createStagingStack hc tc => handleCreateStagingStack s hc tc
  | .addToStagingStack hc st => handleAddToStagingStack s hc st
  | .cancelStagingStack st => handleCancelStagingStack s st
  | .disbandStagingStack st => handleDisbandStagingStack s st
  | .finalizeStagingStack st =>
    match handleFinalizeStagingStack s st with
    | .newState s2 => s2
    | _ => s
  | .mergeIntoOwnBuild st b => handleMergeIntoOwnBuild s st b
  | .reinforceBuildWithStack st b => handleReinforceBuildWithStack s st b
  | .reinforceOpponentBuildWithStack st b =>
    handleReinforceOpponentBuildWithStack s st b
  | .roundDeal => startNextRound s
  | .sweep => handleSweep s

/-- Global sanity of a state: a valid player index, entity keys on the table
pairwise distinct (two builds never share a buildId, two stacks never share
a stackId, the same loose card never lies on the table twice), and every
card present at most once across the whole state. -/
def stateWF (s : GameState) : Prop :=
  s.currentPlayer ≤ 1 ∧ (s.tableCards.map entityKey).Nodup
    ∧ (stateCardsList s).Nodup

/-- Well-formedness of an action payload relative to the state: the
payloads the game's own callers produce (referenced entities actually on
the table, distinct selections, a hand-sourced capture, an opponent card
actually in the opponent's capture pile, the sum-build pair listing exactly
the played and selected cards). -/
def actionWF (s : GameState) : GAction → Prop
  | .trail _ => True
  | .build card source tcb _ sp =>
    source = .hand ∧ tcb.Nodup
      ∧ (∀ c ∈ tcb, TableEntity.loose c ∈ s.tableCards)
      ∧ (∀ b sm, sp = some (b, sm) →
          (b ::ₘ sm ::ₘ 0 : Multiset Card) = card ::ₘ (tcb : Multiset Card))
  | .capture card source sel oc =>
    source = .hand ∧ (∀ e ∈ sel, e ∈ s.tableCards)
      ∧ (sel.map entityKey).Nodup
      ∧ (∀ c, oc = some c → c ∈ (capsOf s (1 - s.currentPlayer)).flatten)
      ∧ (sel.any isStackEntity = true →
          ((sel.flatMap entityItems).filter fun it =>
            it.1 == some CardSource.hand && it.2.rank == card.rank
              && it.2.suit == card.suit).length = 1)
  | .createStagingStack _ _ => True
  | .addToStagingStack _ target => TableEntity.stack target ∈ s.tableCards
  | .cancelStagingStack st => TableEntity.stack st ∈ s.tableCards
  | .disbandStagingStack st => TableEntity.stack st ∈ s.tableCards
  | .finalizeStagingStack st => TableEntity.stack st ∈ s.tableCards
  | .mergeIntoOwnBuild st b =>
    TableEntity.stack st ∈ s.tableCards ∧ TableEntity.build b ∈ s.tableCards
  | .reinforceBuildWithStack st b =>
    TableEntity.stack st ∈ s.tableCards ∧ TableEntity.build b ∈ s.tableCards
  | .reinforceOpponentBuildWithStack st b =>
    TableEntity.stack st ∈ s.tableCards ∧ TableEntity.build b ∈ s.tableCards
  | .roundDeal => True
  | .sweep => ∀ e ∈ s.tableCards, isStackEntity e = false

/-! ### Concrete fixtures used by witnesses and counterexamples -/

/-- A 20-card deck: the thirteen spades and seven hearts. -/
def deck20 : List Card :=
  [⟨.ace, .spades⟩, ⟨.two, .spades⟩, ⟨.three, .spades⟩, ⟨.four, .spades⟩,
   ⟨.five, .spades⟩, ⟨.six, .spades⟩, ⟨.seven, .spades⟩, ⟨.eight, .spades⟩,
   ⟨.nine, .spades⟩, ⟨.ten, .spades⟩, ⟨.jack, .spades⟩, ⟨.queen, .spades⟩,
   ⟨.king, .spades⟩, ⟨.ace, .hearts⟩, ⟨.two, .hearts⟩, ⟨.three, .hearts⟩,
   ⟨.four, .hearts⟩, ⟨.five, .hearts⟩, ⟨.six, .hearts⟩, ⟨.seven, .hearts⟩]

/-- A state at the end of round 1: both hands empty, 20 cards in the deck,
one loose card on the table. -/
def stateRound2Ready : GameState :=
  { currentPlayer := 0
    hand0 := []
    hand1 := []
    tableCards := [.loose ⟨.eight, .hearts⟩]
    captures0 := []
    captures1 := []
    deck := deck20
    round := 1
    lastCapturer := none
    gameOver := false }

/-- A staging stack holding one card of each origin: a hand card, a table
card, and an opponent-capture card. -/
def stagingStackMixed : StackData :=
  { stackId := 7
    cards := [⟨⟨.five, .hearts⟩, .hand⟩, ⟨⟨.three, .clubs⟩, .table⟩,
      ⟨⟨.nine, .diamonds⟩, .opponentCapture⟩]
    owner := 0 }

/-- A state with the mixed staging stack on the table and a non-empty
opponent capture pile. -/
def stateWithStack : GameState :=
  { currentPlayer := 0
    hand0 := [⟨.two, .hearts⟩]
    hand1 := [⟨.four, .clubs⟩]
    tableCards := [.loose ⟨.six, .spades⟩, .stack stagingStackMixed]
    captures0 := []
    captures1 := [[⟨.ace, .clubs⟩]]
    deck := []
    round := 1
    lastCapturer := none
    gameOver := false }

/-- A permanent build of value six owned by player 0. -/
def buildSix : BuildData :=
  { buildId := 3, value := 6, cards := [⟨.six, .clubs⟩], owner := 0
    isExtendable := true }

/-- A staging stack of player 0 holding a table card and a hand card. -/
def stackForBuild : StackData :=
  { stackId := 9
    cards := [⟨⟨.two, .diamonds⟩, .table⟩, ⟨⟨.three, .diamonds⟩, .hand⟩]
    owner := 0 }

/-- A state in which player 0 already owns an active build and also has a
staging stack on the table. -/
def stateOwnBuild : GameState :=
  { currentPlayer := 0
    hand0 := [⟨.five, .diamonds⟩, ⟨.six, .hearts⟩]
    hand1 := [⟨.ten, .clubs⟩]
    tableCards := [.build buildSix, .stack stackForBuild]
    captures0 := []
    captures1 := []
    deck := []
    round := 1
    lastCapturer := none
    gameOver := false }

/-- A round-2 state for player 0 with one card in hand and no staging
stack on the table. -/
def stateRound2Play : GameState :=
  { currentPlayer := 0
    hand0 := [⟨.four, .diamonds⟩]
    hand1 := []
    tableCards := [.loose ⟨.nine, .clubs⟩]
    captures0 := []
    captures1 := []
    deck := []
    round := 2
    lastCapturer := none
    gameOver := false }

/-- A state whose hands are empty (used to reject a trail request). -/
def stateEmptyHands : GameState :=
  { currentPlayer := 0
    hand0 := []
    hand1 := []
    tableCards := []
    captures0 := []
    captures1 := []
    deck := []
    round := 1
    lastCapturer := none
    gameOver := false }

/-- An opponent-owned (player 1) extendable build of value seven. -/
def oppBuildSeven : BuildData :=
  { buildId := 11, value := 7, cards := [⟨.seven, .clubs⟩], owner := 1
    isExtendable := true }

/-- A player-0 staging stack of two table cards summing to seven. -/
def stackSeven : StackData :=
  { stackId := 12
    cards := [⟨⟨.three, .hearts⟩, .table⟩, ⟨⟨.four, .spades⟩, .table⟩]
    owner := 0 }

/-- A state where player 0 faces an opponent build of seven and has staged
two table cards summing to seven. -/
def stateOppBuild : GameState :=
  { currentPlayer := 0
    hand0 := [⟨.seven, .diamonds⟩]
    hand1 := []
    tableCards := [.build oppBuildSeven, .stack stackSeven]
    captures0 := []
    captures1 := []
    deck := []
    round := 1
    lastCapturer := none
    gameOver := false }

/-- A player-0-owned extendable build of value seven. -/
def ownBuildSeven : BuildData :=
  { buildId := 21, value := 7, cards := [⟨.seven, .clubs⟩], owner := 0
    isExtendable := true }

/-- A state where player 0 owns the build of seven and holds two sevens. -/
def stateSelfBuild : GameState :=
  { currentPlayer := 0
    hand0 := [⟨.seven, .diamonds⟩, ⟨.seven, .spades⟩]
    hand1 := []
    tableCards := [.build ownBuildSeven]
    captures0 := []
    captures1 := []
    deck := []
    round := 1
    lastCapturer := none
    gameOver := false }

/-! ### Helper lemmas -/

theorem sameCard_iff {a b : Card} : sameCard a b = true ↔ a = b := by
  cases a
  cases b
  simp [sameCard, Card.mk.injEq]

theorem removeFirstCard_some {card : Card} :
    ∀ {hand h2 : List Card} {c : Card},
      removeFirstCard hand card = some (h2, c) →
        c = card ∧ List.Perm hand (card :: h2) := by
  intro hand
  induction hand with
  | nil => intro h2 c h; simp [removeFirstCard] at h
  | cons x xs ih =>
    intro h2 c h
    rw [removeFirstCard] at h
    by_cases hx : sameCard x card
    · rw [if_pos hx] at h
      have hx2 : x = card := sameCard_iff.mp hx
      have h1 : xs = h2 ∧ x = c := by simpa using h
      obtain ⟨hxs, hxc⟩ := h1
      subst hxs
      subst hx2
      exact ⟨hxc.symm, List.Perm.refl _⟩
    · rw [if_neg hx] at h
      cases hr : removeFirstCard xs card with
      | none => rw [hr] at h; simp at h
      | some pr =>
        obtain ⟨rest2, removed⟩ := pr
        rw [hr] at h
        have h1 : x :: rest2 = h2 ∧ removed = c := by simpa using h
        obtain ⟨hxs, hxc⟩ := h1
        subst hxs
        subst hxc
        obtain ⟨hc, hperm⟩ := ih hr
        refine ⟨hc, ?_⟩
        exact (hperm.cons x).trans (List.Perm.swap card x rest2)

theorem removeFirstCard_isSome_of_mem {card : Card} :
    ∀ {hand : List Card}, card ∈ hand → (removeFirstCard hand card).isSome := by
  intro hand
  induction hand with
  | nil => intro h; simp at h
  | cons x xs ih =>
    intro h
    rw [removeFirstCard]
    by_cases hx : sameCard x card
    · rw [if_pos hx]; rfl
    · rw [if_neg hx]
      have hmem : card ∈ xs := by
        rcases List.mem_cons.mp h with h | h
        · exact absurd (by rw [h, sameCard_iff.mpr rfl] at hx ⊢) hx
        · exact h
      have hsome := ih hmem
      cases hr : removeFirstCard xs card with
      | none => rw [hr] at hsome; simp at hsome
      | some pr => obtain ⟨a, b⟩ := pr; rfl

theorem popCard_of_ne_nil {d : List Card} (h : d ≠ []) :
    popCard d = some (d.getLast h, d.dropLast) := by
  unfold popCard
  rw [List.getLast?_eq_getLast d h]

theorem dealLoop_spec :
    ∀ (n : Nat) (d h0 h1 : List Card), 2 * n ≤ d.length →
      (dealLoop n d h0 h1).1 = d.take (d.length - 2 * n)
      ∧ (dealLoop n d h0 h1).2.1.length = h0.length + n
      ∧ (dealLoop n d h0 h1).2.2.length = h1.length + n
      ∧ ((dealLoop n d h0 h1).1 : Multiset Card) + (dealLoop n d h0 h1).2.1
          + (dealLoop n d h0 h1).2.2 = (d : Multiset Card) + h0 + h1 := by
  intro n
  induction n with
  | zero => intro d h0 h1 _; simp [dealLoop]
  | succ n ih =>
    intro d h0 h1 hlen
    have hd : d ≠ [] := by
      intro h
      rw [h] at hlen
      simp at hlen
    have hd1 : d.dropLast ≠ [] := by
      have hld : d.dropLast.length = d.length - 1 := List.length_dropLast d
      intro h
      rw [h] at hld
      simp at hld
      omega
    have hiter : dealIter d h0 h1 =
        (d.dropLast.dropLast, h0 ++ [d.getLast hd],
          h1 ++ [d.dropLast.getLast hd1]) := by
      simp [dealIter, popCard_of_ne_nil hd, popCard_of_ne_nil hd1]
    have hlen2 : 2 * n ≤ d.dropLast.dropLast.length := by
      rw [List.length_dropLast, List.length_dropLast]
      omega
    have hres := ih d.dropLast.dropLast (h0 ++ [d.getLast hd])
      (h1 ++ [d.dropLast.getLast hd1]) hlen2
    have hstep : dealLoop (n + 1) d h0 h1 =
        dealLoop n d.dropLast.dropLast (h0 ++ [d.getLast hd])
          (h1 ++ [d.dropLast.getLast hd1]) := by
      rw [dealLoop, hiter]
    obtain ⟨hdeck, hl0, hl1, hms⟩ := hres
    have hdl : d.dropLast.dropLast = d.take (d.length - 2) := by
      simp [List.dropLast_eq_take, List.take_take]
      omega
    refine ⟨?_, ?_, ?_, ?_⟩
    · rw [hstep, hdeck, hdl, List.length_take, List.take_take]
      congr 1
      omega
    · rw [hstep, hl0]
      simp
      omega
    · rw [hstep, hl1]
      simp
      omega
    · rw [hstep, hms]
      have hsplit : (d : Multiset Card) =
          (d.dropLast.dropLast : Multiset Card)
            + {d.dropLast.getLast hd1} + {d.getLast hd} := by
        conv_lhs => rw [← List.dropLast_append_getLast hd]
        conv_lhs => rw [← List.dropLast_append_getLast hd1]
        rfl
      rw [hsplit]
      simp only [← Multiset.coe_add, Multiset.coe_singleton]
      abel

/-- C8: with both hands empty and at least 20 cards in the deck, the
round-2 transition sets round to 2, deals exactly 10 cards to each player
alternately from the end of the deck, and leaves the table unchanged; with
fewer than 20 cards the state is unchanged. -/
theorem round2_deal_spec (s : GameState) :
    (s.hand0 = [] → s.hand1 = [] → 20 ≤ s.deck.length →
      (startNextRound s).round = 2
      ∧ (startNextRound s).hand0.length = 10
      ∧ (startNextRound s).hand1.length = 10
      ∧ (startNextRound s).tableCards = s.tableCards
      ∧ (startNextRound s).deck = s.deck.take (s.deck.length - 20)
      ∧ ((startNextRound s).hand0 : Multiset Card)
          + (startNextRound s).hand1
          = (s.deck.drop (s.deck.length - 20) : Multiset Card))
    ∧ (s.deck.length < 20 → startNextRound s = s) := by
  constructor
  · intro h0 h1 hd
    have hnot : ¬ s.deck.length < 20 := by omega
    obtain ⟨hdeck, hl0, hl1, hms⟩ :=
      dealLoop_spec 10 s.deck s.hand0 s.hand1 (by omega)
    have h210 : s.deck.length - 2 * 10 = s.deck.length - 20 := by norm_num
    rw [h210] at hdeck
    have hsr : startNextRound s =
        { s with deck := (dealLoop 10 s.deck s.hand0 s.hand1).1,
                 hand0 := (dealLoop 10 s.deck s.hand0 s.hand1).2.1,
                 hand1 := (dealLoop 10 s.deck s.hand0 s.hand1).2.2,
                 round := 2 } := by
      rw [startNextRound, if_neg hnot]
    refine ⟨?_, ?_, ?_, ?_, ?_, ?_⟩
    · rw [hsr]
    · rw [hsr]
      show (dealLoop 10 s.deck s.hand0 s.hand1).2.1.length = 10
      rw [hl0, h0]
      rfl
    · rw [hsr]
      show (dealLoop 10 s.deck s.hand0 s.hand1).2.2.length = 10
      rw [hl1, h1]
      rfl
    · rw [hsr]
    · rw [hsr]
      exact hdeck
    · rw [hsr]
      show ((dealLoop 10 s.deck s.hand0 s.hand1).2.1 : Multiset Card)
          + (dealLoop 10 s.deck s.hand0 s.hand1).2.2
          = (s.deck.drop (s.deck.length - 20) : Multiset Card)
      rw [h0, h1] at hdeck hms ⊢
      rw [hdeck] at hms
      simp only [Multiset.coe_nil, add_zero] at hms
      have hsplit : (s.deck : Multiset Card) =
          (s.deck.take (s.deck.length - 20) : Multiset Card)
            + (s.deck.drop (s.deck.length - 20) : Multiset Card) := by
        conv_lhs => rw [← List.take_append_drop (s.deck.length - 20) s.deck]
        rfl
      rw [hsplit, add_assoc] at hms
      exact add_left_cancel hms
  · intro h
    rw [startNextRound, if_pos h]

theorem round2_deal_spec_witness :
    stateRound2Ready.hand0 = [] ∧ stateRound2Ready.hand1 = []
      ∧ 20 ≤ stateRound2Ready.deck.length
      ∧ (startNextRound stateRound2Ready).round = 2
      ∧ (startNextRound stateRound2Ready).hand0.length = 10
      ∧ (startNextRound stateRound2Ready).hand1.length = 10 :=
  ⟨rfl, rfl, by decide,
    ((round2_deal_spec stateRound2Ready).1 rfl rfl (by decide)).1,
    ((round2_deal_spec stateRound2Ready).1 rfl rfl (by decide)).2.1,
    ((round2_deal_spec stateRound2Ready).1 rfl rfl (by decide)).2.2.1⟩

theorem tally_foldl_spec (cards : List Card) :
    ∀ acc : Nat × Nat × Nat,
      cards.foldl tallyStep acc =
        (acc.1 + (cards.filter fun c => c.rank == Rank.ace).length,
         if cards.any (fun c => c.rank == Rank.ten && c.suit == Suit.diamonds)
           then 2 else acc.2.1,
         if cards.any (fun c => c.rank == Rank.two && c.suit == Suit.spades)
           then 1 else acc.2.2) := by
  induction cards with
  | nil => intro acc; simp
  | cons c cs ih =>
    intro acc
    rw [List.foldl_cons, ih]
    simp only [Prod.mk.injEq]
    refine ⟨?_, ?_, ?_⟩
    · simp only [tallyStep, List.filter_cons]
      by_cases hace : c.rank == Rank.ace
      · simp [hace]
        omega
      · simp [hace]
    · simp only [tallyStep, List.any_cons]
      by_cases hbig : c.rank == Rank.ten && c.suit == Suit.diamonds
      · simp [hbig]
      · simp [hbig]
    · simp only [tallyStep, List.any_cons]
      by_cases hlil : c.rank == Rank.two && c.suit == Suit.spades
      · simp [hlil]
      · simp [hlil]

theorem tallySpecialCards_spec (cards : List Card) :
    tallySpecialCards cards =
      ((cards.filter fun c => c.rank == Rank.ace).length,
       if cards.any (fun c => c.rank == Rank.ten && c.suit == Suit.diamonds)
         then 2 else 0,
       if cards.any (fun c => c.rank == Rank.two && c.suit == Suit.spades)
         then 1 else 0) := by
  rw [tallySpecialCards, tally_foldl_spec]
  simp

theorem any_is_card_iff (cards : List Card) (r : Rank) (su : Suit) :
    (cards.any fun c => c.rank == r && c.suit == su)
      = decide ((⟨r, su⟩ : Card) ∈ cards) := by
  rw [Bool.eq_iff_iff, decide_eq_true_iff]
  simp only [List.any_eq_true, Bool.and_eq_true, beq_iff_eq]
  constructor
  · rintro ⟨c, hc, h1, h2⟩
    obtain ⟨cr, cs2⟩ := c
    subst h1
    subst h2
    exact hc
  · intro h
    exact ⟨⟨r, su⟩, h, rfl, rfl⟩

/-- C9 (counterexample): with both capture piles empty the total card
counts tie (0 against 0), yet neither player receives the +1 tie award and
both totals are 0, contradicting the claim's unconditional "+1 each on a
tie" for most cards and most spades. -/
theorem scoring_zero_tie_counterexample :
    (calculateScores [] []).details.1.cardCount
        = (calculateScores [] []).details.2.cardCount
      ∧ (calculateScores [] []).details.1.spadeCount
        = (calculateScores [] []).details.2.spadeCount
      ∧ (calculateScores [] []).details.1.mostCards = 0
      ∧ (calculateScores [] []).details.2.mostCards = 0
      ∧ (calculateScores [] []).details.1.mostSpades = 0
      ∧ (calculateScores [] []).details.2.mostSpades = 0
      ∧ (calculateScores [] []).scores = (0, 0) := by
  decide

/-- C9 (amended): scoring awards +2 to the player with most captured cards,
or +1 each on a tie with at least one card captured (a 0-0 tie awards
nothing); likewise +2 / +1-each-on-a-nonzero-tie for most captured spades;
+1 per captured ace; +2 for the ten of diamonds; +1 for the two of spades;
the total is the sum of these awards and the winner is the player with the
strictly higher total, or none on a tie. -/
theorem scoring_spec (caps0 caps1 : List (List Card)) :
    (calculateScores caps0 caps1).details.1.mostCards
        = (if caps1.flatten.length < caps0.flatten.length then 2
           else if caps0.flatten.length < caps1.flatten.length then 0
           else if 0 < caps0.flatten.length then 1 else 0)
    ∧ (calculateScores caps0 caps1).details.2.mostCards
        = (if caps0.flatten.length < caps1.flatten.length then 2
           else if caps1.flatten.length < caps0.flatten.length then 0
           else if 0 < caps1.flatten.length then 1 else 0)
    ∧ (calculateScores caps0 caps1).details.1.mostSpades
        = (if (caps1.flatten.filter fun c => c.suit == Suit.spades).length
              < (caps0.flatten.filter fun c => c.suit == Suit.spades).length
           then 2
           else if (caps0.flatten.filter fun c => c.suit == Suit.spades).length
              < (caps1.flatten.filter fun c => c.suit == Suit.spades).length
           then 0
           else if 0 < (caps0.flatten.filter fun c =>
              c.suit == Suit.spades).length then 1 else 0)
    ∧ (calculateScores caps0 caps1).details.2.mostSpades
        = (if (caps0.flatten.filter fun c => c.suit == Suit.spades).length
              < (caps1.flatten.filter fun c => c.suit == Suit.spades).length
           then 2
           else if (caps1.flatten.filter fun c => c.suit == Suit.spades).length
              < (caps0.flatten.filter fun c => c.suit == Suit.spades).length
           then 0
           else if 0 < (caps1.flatten.filter fun c =>
              c.suit == Suit.spades).length then 1 else 0)
    ∧ (calculateScores caps0 caps1).details.1.aces
        = (caps0.flatten.filter fun c => c.rank == Rank.ace).length
    ∧ (calculateScores caps0 caps1).details.2.aces
        = (caps1.flatten.filter fun c => c.rank == Rank.ace).length
    ∧ (calculateScores caps0 caps1).details.1.bigCasino
        = (if (⟨.ten, .diamonds⟩ : Card) ∈ caps0.flatten then 2 else 0)
    ∧ (calculateScores caps0 caps1).details.2.bigCasino
        = (if (⟨.ten, .diamonds⟩ : Card) ∈ caps1.flatten then 2 else 0)
    ∧ (calculateScores caps0 caps1).details.1.littleCasino
        = (if (⟨.two, .spades⟩ : Card) ∈ caps0.flatten then 1 else 0)
    ∧ (calculateScores caps0 caps1).details.2.littleCasino
        = (if (⟨.two, .spades⟩ : Card) ∈ caps1.flatten then 1 else 0)
    ∧ (calculateScores caps0 caps1).details.1.total
        = (calculateScores caps0 caps1).details.1.mostCards
          + (calculateScores caps0 caps1).details.1.mostSpades
          + (calculateScores caps0 caps1).details.1.bigCasino
          + (calculateScores caps0 caps1).details.1.littleCasino
          + (calculateScores caps0 caps1).details.1.aces
    ∧ (calculateScores caps0 caps1).details.2.total
        = (calculateScores caps0 caps1).details.2.mostCards
          + (calculateScores caps0 caps1).details.2.mostSpades
          + (calculateScores caps0 caps1).details.2.bigCasino
          + (calculateScores caps0 caps1).details.2.littleCasino
          + (calculateScores caps0 caps1).details.2.aces
    ∧ (calculateScores caps0 caps1).scores
        = ((calculateScores caps0 caps1).details.1.total,
           (calculateScores caps0 caps1).details.2.total)
    ∧ (calculateScores caps0 caps1).winner
        = (if (calculateScores caps0 caps1).details.2.total
              < (calculateScores caps0 caps1).details.1.total then some 0
           else if (calculateScores caps0 caps1).details.1.total
              < (calculateScores caps0 caps1).details.2.total then some 1
           else none) := by
  simp only [calculateScores, tallySpecialCards_spec, any_is_card_iff]
  repeat' apply And.intro
  all_goals first
    | trivial
    | (split_ifs <;>
        first
          | rfl
          | omega
          | (simp_all only [Bool.and_eq_true, decide_eq_true_eq, beq_iff_eq,
              true_and, and_true, not_true, gt_iff_lt] <;> omega))

theorem splitBySource_eq (cards : List TaggedCard) :
    splitBySource cards =
      ((cards.filter fun c => c.source == CardSource.hand).map (fun c => c.card),
       (cards.filter fun c => !(c.source == CardSource.hand)
          && !(c.source == CardSource.opponentCapture)).map (fun c => c.card),
       (cards.filter fun c => c.source == CardSource.opponentCapture).map
          (fun c => c.card)) := by
  induction cards with
  | nil => rfl
  | cons c cs ih =>
    obtain ⟨cc, csrc⟩ := c
    cases csrc <;> simp [splitBySource, ih, List.filter_cons]

/-- C10: when a temporary staging stack is cancelled or disbanded, its
opponent-capture-tagged cards are appended to the opponent's last capture
group, and a new group is created for them only when the opponent has no
capture groups; hand-tagged cards return to the acting player's hand and
all remaining cards return to the table as loose cards, the stack itself
leaving the table. -/
theorem staging_restore_spec (s : GameState) (stack : StackData)
    (hcp : s.currentPlayer ≤ 1) :
    (handOf (handleDisbandStagingStack s stack) s.currentPlayer
        = handOf s s.currentPlayer
          ++ (stack.cards.filter fun c => c.source == CardSource.hand).map
              (fun c => c.card))
    ∧ (handOf (handleCancelStagingStack s stack) s.currentPlayer
        = handOf s s.currentPlayer
          ++ (stack.cards.filter fun c => c.source == CardSource.hand).map
              (fun c => c.card))
    ∧ (capsOf (handleDisbandStagingStack s stack) (1 - s.currentPlayer)
        = restoreCapsSpec (capsOf s (1 - s.currentPlayer))
            ((stack.cards.filter fun c =>
              c.source == CardSource.opponentCapture).map (fun c => c.card)))
    ∧ (capsOf (handleCancelStagingStack s stack) (1 - s.currentPlayer)
        = restoreCapsSpec (capsOf s (1 - s.currentPlayer))
            ((stack.cards.filter fun c =>
              c.source == CardSource.opponentCapture).map (fun c => c.card)))
    ∧ ((handleDisbandStagingStack s stack).tableCards
        = (s.tableCards.filter fun e =>
            match e with
            | .stack st => st.stackId != stack.stackId
            | _ => true)
          ++ ((stack.cards.filter fun c => !(c.source == CardSource.hand)
              && !(c.source == CardSource.opponentCapture)).map
                (fun c => TableEntity.loose c.card)))
    ∧ ((handleCancelStagingStack s stack).tableCards
        = (s.tableCards.filter fun e =>
            match e with
            | .stack st => st.stackId != stack.stackId
            | _ => true)
          ++ ((stack.cards.filter fun c => !(c.source == CardSource.hand)
              && !(c.source == CardSource.opponentCapture)).map
                (fun c => TableEntity.loose c.card))) := by
  have hsplit := splitBySource_eq stack.cards
  rcases Nat.le_one_iff_eq_zero_or_eq_one.mp hcp with h0 | h1
  · refine ⟨?_, ?_, ?_, ?_, ?_, ?_⟩ <;>
      simp [handleDisbandStagingStack, handleCancelStagingStack, hsplit, h0,
        handOf, setHand, capsOf, setCaps, nextPlayer, restoreOpponentCaps,
        restoreCapsSpec, List.map_map]
  · refine ⟨?_, ?_, ?_, ?_, ?_, ?_⟩ <;>
      simp [handleDisbandStagingStack, handleCancelStagingStack, hsplit, h1,
        handOf, setHand, capsOf, setCaps, nextPlayer, restoreOpponentCaps,
        restoreCapsSpec, List.map_map]

theorem staging_restore_spec_witness :
    stateWithStack.currentPlayer ≤ 1
      ∧ handOf (handleDisbandStagingStack stateWithStack stagingStackMixed)
          stateWithStack.currentPlayer
        = handOf stateWithStack stateWithStack.currentPlayer
          ++ (stagingStackMixed.cards.filter fun c =>
              c.source == CardSource.hand).map (fun c => c.card)
      ∧ capsOf (handleCancelStagingStack stateWithStack stagingStackMixed)
          (1 - stateWithStack.currentPlayer)
        = restoreCapsSpec
            (capsOf stateWithStack (1 - stateWithStack.currentPlayer))
            ((stagingStackMixed.cards.filter fun c =>
              c.source == CardSource.opponentCapture).map (fun c => c.card)) :=
  ⟨by decide,
    (staging_restore_spec stateWithStack stagingStackMixed (by decide)).1,
    (staging_restore_spec stateWithStack stagingStackMixed
      (by decide)).2.2.2.1⟩

/-! ### Projection lemmas for the state helpers -/

@[simp]
theorem nextPlayer_currentPlayer (s : GameState) :
    (nextPlayer s).currentPlayer = 1 - s.currentPlayer := rfl

@[simp]
theorem nextPlayer_hand0 (s : GameState) : (nextPlayer s).hand0 = s.hand0 := rfl

@[simp]
theorem nextPlayer_hand1 (s : GameState) : (nextPlayer s).hand1 = s.hand1 := rfl

@[simp]
theorem nextPlayer_tableCards (s : GameState) :
    (nextPlayer s).tableCards = s.tableCards := rfl

@[simp]
theorem nextPlayer_captures0 (s : GameState) :
    (nextPlayer s).captures0 = s.captures0 := rfl

@[simp]
theorem nextPlayer_captures1 (s : GameState) :
    (nextPlayer s).captures1 = s.captures1 := rfl

@[simp]
theorem nextPlayer_deck (s : GameState) : (nextPlayer s).deck = s.deck := rfl

@[simp]
theorem setHand_currentPlayer (s : GameState) (p : Nat) (h : List Card) :
    (setHand s p h).currentPlayer = s.currentPlayer := by
  unfold setHand
  split <;> rfl

@[simp]
theorem setHand_tableCards (s : GameState) (p : Nat) (h : List Card) :
    (setHand s p h).tableCards = s.tableCards := by
  unfold setHand
  split <;> rfl

@[simp]
theorem setHand_captures0 (s : GameState) (p : Nat) (h : List Card) :
    (setHand s p h).captures0 = s.captures0 := by
  unfold setHand
  split <;> rfl

@[simp]
theorem setHand_captures1 (s : GameState) (p : Nat) (h : List Card) :
    (setHand s p h).captures1 = s.captures1 := by
  unfold setHand
  split <;> rfl

@[simp]
theorem setHand_deck (s : GameState) (p : Nat) (h : List Card) :
    (setHand s p h).deck = s.deck := by
  unfold setHand
  split <;> rfl

@[simp]
theorem setCaps_currentPlayer (s : GameState) (p : Nat)
    (c : List (List Card)) : (setCaps s p c).currentPlayer = s.currentPlayer := by
  unfold setCaps
  split <;> rfl

@[simp]
theorem setCaps_hand0 (s : GameState) (p : Nat) (c : List (List Card)) :
    (setCaps s p c).hand0 = s.hand0 := by
  unfold setCaps
  split <;> rfl

@[simp]
theorem setCaps_hand1 (s : GameState) (p : Nat) (c : List (List Card)) :
    (setCaps s p c).hand1 = s.hand1 := by
  unfold setCaps
  split <;> rfl

@[simp]
theorem setCaps_tableCards (s : GameState) (p : Nat) (c : List (List Card)) :
    (setCaps s p c).tableCards = s.tableCards := by
  unfold setCaps
  split <;> rfl

@[simp]
theorem setCaps_deck (s : GameState) (p : Nat) (c : List (List Card)) :
    (setCaps s p c).deck = s.deck := by
  unfold setCaps
  split <;> rfl

@[simp]
theorem handOf_setHand (s : GameState) (p : Nat) (h : List Card) :
    handOf (setHand s p h) p = h := by
  by_cases hp : p == 0 <;> simp [handOf, setHand, hp]

@[simp]
theorem capsOf_setCaps (s : GameState) (p : Nat) (c : List (List Card)) :
    capsOf (setCaps s p c) p = c := by
  by_cases hp : p == 0 <;> simp [capsOf, setCaps, hp]

@[simp]
theorem capsOf_setHand (s : GameState) (p q : Nat) (h : List Card) :
    capsOf (setHand s p h) q = capsOf s q := by
  by_cases hp : p == 0 <;> by_cases hq : q == 0 <;>
    simp [capsOf, setHand, hp, hq]

@[simp]
theorem handOf_setCaps (s : GameState) (p q : Nat) (c : List (List Card)) :
    handOf (setCaps s p c) q = handOf s q := by
  by_cases hp : p == 0 <;> by_cases hq : q == 0 <;>
    simp [handOf, setCaps, hp, hq]

/-! ### C3: the capturability rule -/

/-- C3: a build may be created or extended to a value V only if the acting
player's hand, excluding the card just played, holds at least one card of
rank-value V — for direct builds (validateBuild), for extending an
opponent's build (validateAddToOpponentBuild, where V is the extended
value), and for finalizing a staging stack (every value offered by
findPossibleBuildsFromStack); a direct build without such a card is
rejected by handleBuild with the state unchanged. -/
theorem build_capturability_spec :
    (∀ (hand : List Card) (playerCard : Card) (buildValue : Nat)
        (table : List TableEntity) (p : Nat),
      (validateBuild hand playerCard buildValue table p).valid = true →
        ∃ c ∈ hand, (c.rank ≠ playerCard.rank ∨ c.suit ≠ playerCard.suit)
          ∧ rankValue c.rank = buildValue)
    ∧ (∀ (b : BuildData) (playerCard : Card) (hand : List Card)
        (table : List TableEntity) (p : Nat),
      (validateAddToOpponentBuild b playerCard hand table p).valid = true →
        ∃ c ∈ hand, (c.rank ≠ playerCard.rank ∨ c.suit ≠ playerCard.suit)
          ∧ rankValue c.rank = b.value + rankValue playerCard.rank)
    ∧ (∀ (stack : StackData) (hand : List Card) (table : List TableEntity)
        (p : Nat) (v : Nat),
      v ∈ findPossibleBuildsFromStack stack hand table p →
        ∃ tc, stack.cards.filter (fun c => c.source == CardSource.hand) = [tc]
          ∧ ∃ c ∈ hand, (c.rank ≠ tc.card.rank ∨ c.suit ≠ tc.card.suit)
            ∧ rankValue c.rank = v)
    ∧ (∀ (s : GameState) (playerCard : Card) (src : CardSource)
        (tcb : List Card) (buildValue : Nat) (sp : Option (Card × Card)),
      (∀ c ∈ handOf s s.currentPlayer,
        (c.rank ≠ playerCard.rank ∨ c.suit ≠ playerCard.suit) →
          rankValue c.rank ≠ buildValue) →
        handleBuild s playerCard src tcb buildValue sp = s) := by
  have hext : ∀ (hand : List Card) (pc : Card) (v : Nat),
      (hand.any fun c => rankValue c.rank == v
        && (c.rank != pc.rank || c.suit != pc.suit)) = true →
        ∃ c ∈ hand, (c.rank ≠ pc.rank ∨ c.suit ≠ pc.suit)
          ∧ rankValue c.rank = v := by
    intro hand pc v h
    obtain ⟨c, hc, hcond⟩ := List.any_eq_true.mp h
    simp only [Bool.and_eq_true, Bool.or_eq_true, beq_iff_eq, bne_iff_ne] at hcond
    exact ⟨c, hc, hcond.2, hcond.1⟩
  refine ⟨?_, ?_, ?_, ?_⟩
  · intro hand pc v table p hvalid
    simp only [validateBuild] at hvalid
    split_ifs at hvalid with h1 h2 h3 <;> simp at hvalid
    exact hext hand pc v (by revert h2; cases hany :
      (hand.any fun c => rankValue c.rank == v
        && (c.rank != pc.rank || c.suit != pc.suit)) <;> simp [hany])
  · intro b pc hand table p hvalid
    simp only [validateAddToOpponentBuild] at hvalid
    split_ifs at hvalid with h1 h2 h3 h4 h5 <;> simp at hvalid
    exact hext hand pc (b.value + rankValue pc.rank) (by revert h5; cases hany :
      (hand.any fun c => rankValue c.rank == b.value + rankValue pc.rank
        && (c.rank != pc.rank || c.suit != pc.suit)) <;> simp [hany])
  · intro stack hand table p v hv
    rw [findPossibleBuildsFromStack] at hv
    split_ifs at hv with h1
    · simp at hv
    · rcases hfil : stack.cards.filter (fun c => c.source == CardSource.hand)
        with _ | ⟨tc, rest⟩
      · rw [hfil] at hv
        have hv2 : v ∈ ([] : List Nat) := hv
        simp at hv2
      · rcases rest with _ | ⟨tc2, rest2⟩
        · rw [hfil] at hv
          have hv2 : v ∈ (if (hand.filter fun c =>
                c.rank != tc.card.rank || c.suit != tc.card.suit).isEmpty
              then ([] : List Nat)
              else ((hand.filter fun c =>
                  c.rank != tc.card.rank || c.suit != tc.card.suit).map
                    (fun c => rankValue c.rank)).dedup.filter
                  (fun w => canPartitionIntoSums
                    (stack.cards.map fun c => c.card) w)) := hv
          refine ⟨tc, hfil, ?_⟩
          by_cases hre : (hand.filter fun c =>
              c.rank != tc.card.rank || c.suit != tc.card.suit).isEmpty
          · simp [hre] at hv2
          · simp only [hre, Bool.false_eq_true, if_false] at hv2
            have h1v := List.mem_dedup.mp (List.mem_filter.mp hv2).1
            obtain ⟨c, hcmem, hcv⟩ := List.mem_map.mp h1v
            have hcf := List.mem_filter.mp hcmem
            refine ⟨c, hcf.1, ?_, hcv⟩
            have h2 := hcf.2
            simp only [Bool.or_eq_true, bne_iff_ne] at h2
            exact h2
        · rw [hfil] at hv
          have hv2 : v ∈ ([] : List Nat) := hv
          simp at hv2
  · intro s pc src tcb v sp hno
    have hany : (handOf s s.currentPlayer).any (fun c =>
        rankValue c.rank == v
          && (c.rank != pc.rank || c.suit != pc.suit)) = false := by
      rw [List.any_eq_false]
      intro c hc
      simp only [Bool.and_eq_true, Bool.or_eq_true, beq_iff_eq, bne_iff_ne, not_and]
      intro hrv hne
      exact absurd hrv (hno c hc hne)
    have hval : (validateBuild (handOf s s.currentPlayer) pc v
        s.tableCards s.currentPlayer).valid = false := by
      simp only [validateBuild]
      split_ifs with h1 h2 h3 <;> first | rfl | (exfalso; rw [hany] at h2; simp at h2)
    simp [handleBuild, hval]

theorem build_capturability_spec_witness :
    (validateBuild [⟨.eight, .spades⟩, ⟨.five, .hearts⟩]
        ⟨.five, .hearts⟩ 8 [] 0).valid = true
      ∧ ∃ c ∈ [(⟨.eight, .spades⟩ : Card), ⟨.five, .hearts⟩],
          (c.rank ≠ (⟨.five, .hearts⟩ : Card).rank
            ∨ c.suit ≠ (⟨.five, .hearts⟩ : Card).suit)
          ∧ rankValue c.rank = 8 :=
  ⟨by decide,
    build_capturability_spec.1 [⟨.eight, .spades⟩, ⟨.five, .hearts⟩]
      ⟨.five, .hearts⟩ 8 [] 0 (by decide)⟩

/-- C4 (counterexample): player 0 already owns an active build in
stateOwnBuild, yet handleCreateBuildWithValue — the disambiguation
continuation reachable as a direct action — still creates a second
permanent build for player 0 and changes the state, so the claim that every
subsequent build-creation attempt is rejected with the state unchanged is
false. -/
theorem single_build_counterexample :
    hasActiveBuild stateOwnBuild.tableCards 0 = true
      ∧ handleCreateBuildWithValue stateOwnBuild stackForBuild 5 ≠ stateOwnBuild
      ∧ ((handleCreateBuildWithValue stateOwnBuild stackForBuild
          5).tableCards.filter fun e =>
            match e with
            | .build b => b.owner == 0
            | _ => false).length = 2 := by
  decide

/-- C4 (amended): while a player owns an active (permanent) build, every
build-creation path that consults the validators rejects a second permanent
build regardless of the target value and leaves the state unchanged:
validateBuild refuses, handleBuild returns the state untouched,
findPossibleBuildsFromStack offers no value, and finalizing a staging stack
changes nothing; handleCreateBuildWithValue, the post-disambiguation
continuation, performs no such check. -/
theorem single_build_spec (s : GameState)
    (h : hasActiveBuild s.tableCards s.currentPlayer = true) :
    (∀ (card : Card) (v : Nat) (hand : List Card),
      (validateBuild hand card v s.tableCards s.currentPlayer).valid = false)
    ∧ (∀ (card : Card) (src : CardSource) (tcb : List Card) (v : Nat)
        (sp : Option (Card × Card)), handleBuild s card src tcb v sp = s)
    ∧ (∀ (stack : StackData) (hand : List Card),
      findPossibleBuildsFromStack stack hand s.tableCards s.currentPlayer = [])
    ∧ (∀ stack : StackData, step s (.finalizeStagingStack stack) = s) := by
  refine ⟨?_, ?_, ?_, ?_⟩
  · intro card v hand
    simp [validateBuild, h]
  · intro card src tcb v sp
    simp [handleBuild, validateBuild, h]
  · intro stack hand
    simp [findPossibleBuildsFromStack, h]
  · intro stack
    simp [step, handleFinalizeStagingStack, findPossibleBuildsFromStack, h]

theorem single_build_spec_witness :
    hasActiveBuild stateOwnBuild.tableCards stateOwnBuild.currentPlayer = true
      ∧ (validateBuild stateOwnBuild.hand0 ⟨.five, .diamonds⟩ 5
          stateOwnBuild.tableCards stateOwnBuild.currentPlayer).valid = false
      ∧ findPossibleBuildsFromStack stackForBuild stateOwnBuild.hand0
          stateOwnBuild.tableCards stateOwnBuild.currentPlayer = [] :=
  ⟨by decide,
    (single_build_spec stateOwnBuild (by decide)).1 ⟨.five, .diamonds⟩ 5
      stateOwnBuild.hand0,
    (single_build_spec stateOwnBuild (by decide)).2.2.1 stackForBuild
      stateOwnBuild.hand0⟩

/-- C7: in round 1 a trail by a player who owns an active build is
rejected (validateTrail refuses and the trail request leaves the state
unchanged), a trail by a player with no active build is allowed in any
round, and in round 2 a trail request is converted into a single-card
staging stack on the table instead of a direct loose-card placement,
without ending the turn. -/
theorem trail_restriction_spec :
    (∀ (table : List TableEntity) (card : Card) (p : Nat),
      hasActiveBuild table p = true → (validateTrail table card p 1).valid = false)
    ∧ (∀ (s : GameState) (card : Card), s.round = 1 →
        hasActiveBuild s.tableCards s.currentPlayer = true →
          trailAction s card = s)
    ∧ (∀ (table : List TableEntity) (card : Card) (p r : Nat),
      hasActiveBuild table p = false → (validateTrail table card p r).valid = true)
    ∧ (∀ (s : GameState) (card : Card), s.round = 2 →
        (s.tableCards.any fun e =>
          match e with
          | .stack st => st.owner == s.currentPlayer
          | _ => false) = false →
        ∀ pr, removeFirstCard (handOf s s.currentPlayer) card = some pr →
          (trailAction s card).tableCards
              = s.tableCards ++ [TableEntity.stack
                  ⟨generateStackId, [⟨card, .hand⟩], s.currentPlayer⟩]
            ∧ handOf (trailAction s card) s.currentPlayer = pr.1
            ∧ (trailAction s card).currentPlayer = s.currentPlayer) := by
  refine ⟨?_, ?_, ?_, ?_⟩
  · intro table card p h
    simp [validateTrail, h]
  · intro s card hr h
    have hv : (validateTrail s.tableCards card s.currentPlayer 1).valid
        = false := by
      simp [validateTrail, h]
    rw [trailAction, hr]
    simp [hv]
  · intro table card p r h
    simp [validateTrail, h]
  · intro s card hr hstack pr hrem
    rw [trailAction, hr]
    have hstage : handleStageSingleCardFromHand s card =
        { setHand s s.currentPlayer pr.1 with
          tableCards := s.tableCards ++ [TableEntity.stack
            ⟨generateStackId, [⟨card, .hand⟩], s.currentPlayer⟩] } := by
      rw [handleStageSingleCardFromHand]
      rw [if_neg (by simp [hstack])]
      rw [hrem]
    by_cases hcp : s.currentPlayer == 0 <;>
      simp [hstage, handOf, setHand, hcp]

theorem trail_restriction_spec_witness :
    stateRound2Play.round = 2
      ∧ (trailAction stateRound2Play ⟨.four, .diamonds⟩).tableCards
          = stateRound2Play.tableCards ++ [TableEntity.stack
              ⟨generateStackId, [⟨⟨.four, .diamonds⟩, .hand⟩],
                stateRound2Play.currentPlayer⟩]
      ∧ (trailAction stateRound2Play ⟨.four, .diamonds⟩).currentPlayer
          = stateRound2Play.currentPlayer :=
  ⟨rfl,
    (trail_restriction_spec.2.2.2 stateRound2Play ⟨.four, .diamonds⟩ rfl
      (by decide) ([], ⟨.four, .diamonds⟩) (by decide)).1,
    (trail_restriction_spec.2.2.2 stateRound2Play ⟨.four, .diamonds⟩ rfl
      (by decide) ([], ⟨.four, .diamonds⟩) (by decide)).2.2⟩

theorem handleTrail_flip_or_id (s : GameState) (card : Card) :
    handleTrail s card = s
      ∨ (handleTrail s card).currentPlayer = 1 - s.currentPlayer := by
  rw [handleTrail]
  split
  · exact Or.inl rfl
  · right
    simp

theorem handleCaptureMain_flip_or_id (s : GameState) (c : Card)
    (src : CardSource) (sel : List TableEntity) (oc : Option Card) :
    handleCaptureMain s c src sel oc = s
      ∨ (handleCaptureMain s c src sel oc).currentPlayer
          = 1 - s.currentPlayer := by
  simp only [handleCaptureMain]
  split
  · exact Or.inl rfl
  · rename_i s1 newTable actual heq
    right
    split at heq
    · simp only [Option.some.injEq, Prod.mk.injEq] at heq
      obtain ⟨h1, -, -⟩ := heq
      rw [← h1]
      simp
    · split at heq
      · simp only [Option.some.injEq, Prod.mk.injEq] at heq
        obtain ⟨h1, -, -⟩ := heq
        rw [← h1]
        simp
      · split at heq
        · simp at heq
        · simp only [Option.some.injEq, Prod.mk.injEq] at heq
          obtain ⟨h1, -, -⟩ := heq
          rw [← h1]
          simp

theorem handleCapture_flip_or_id (s : GameState) (c : Card)
    (src : CardSource) (sel : List TableEntity) (oc : Option Card) :
    handleCapture s c src sel oc = s
      ∨ (handleCapture s c src sel oc).currentPlayer = 1 - s.currentPlayer := by
  simp only [handleCapture]
  split
  · split
    · split
      · exact Or.inl rfl
      · right
        simp
    · exact handleCaptureMain_flip_or_id s c src sel oc
  · exact handleCaptureMain_flip_or_id s c src sel oc

/-- C2 (counterexample): the claim quantifies over every game state, but a
trail of a card that is not in the acting player's hand is returned
unchanged, so its currentPlayer is not flipped. -/
theorem turn_advance_counterexample :
    (handleTrail stateEmptyHands ⟨.ace, .spades⟩).currentPlayer
      ≠ 1 - stateEmptyHands.currentPlayer := by
  decide

/-- C2 (amended): whenever the trail or capture handler accepts the action
(returns a state other than the unchanged input), and whenever finalizing a
staging stack creates a build, the returned state's currentPlayer is
1 - currentPlayer; createStagingStack, addToStagingStack and
mergeIntoOwnBuild always return a state with currentPlayer unchanged. -/
theorem turn_advance_spec :
    (∀ (s : GameState) (card : Card), handleTrail s card ≠ s →
      (handleTrail s card).currentPlayer = 1 - s.currentPlayer)
    ∧ (∀ (s : GameState) (card : Card) (src : CardSource)
        (sel : List TableEntity) (oc : Option Card),
      handleCapture s card src sel oc ≠ s →
        (handleCapture s card src sel oc).currentPlayer = 1 - s.currentPlayer)
    ∧ (∀ (s : GameState) (stack : StackData) (s2 : GameState),
      handleFinalizeStagingStack s stack = .newState s2 →
        s2.currentPlayer = 1 - s.currentPlayer)
    ∧ (∀ (s : GameState) (hc tc : Card),
      (handleCreateStagingStack s hc tc).currentPlayer = s.currentPlayer)
    ∧ (∀ (s : GameState) (hc : Card) (st : StackData),
      (handleAddToStagingStack s hc st).currentPlayer = s.currentPlayer)
    ∧ (∀ (s : GameState) (st : StackData) (b : BuildData),
      (handleMergeIntoOwnBuild s st b).currentPlayer = s.currentPlayer) := by
  refine ⟨?_, ?_, ?_, ?_, ?_, ?_⟩
  · intro s card hne
    rcases handleTrail_flip_or_id s card with h | h
    · exact absurd h hne
    · exact h
  · intro s card src sel oc hne
    rcases handleCapture_flip_or_id s card src sel oc with h | h
    · exact absurd h hne
    · exact h
  · intro s stack s2 h
    simp only [handleFinalizeStagingStack] at h
    split_ifs at h <;> simp at h
    rw [← h]
    simp
  · intro s hc tc
    simp only [handleCreateStagingStack]
    split
    · rfl
    · split
      · rfl
      · split
        · rfl
        · simp
  · intro s hc st
    simp only [handleAddToStagingStack]
    split
    · rfl
    · simp
  · intro s st b
    rfl

theorem turn_advance_spec_witness :
    handleTrail stateWithStack ⟨.two, .hearts⟩ ≠ stateWithStack
      ∧ (handleTrail stateWithStack ⟨.two, .hearts⟩).currentPlayer
        = 1 - stateWithStack.currentPlayer :=
  ⟨by decide, turn_advance_spec.1 stateWithStack ⟨.two, .hearts⟩ (by decide)⟩

/-- C5 (counterexample): reinforcing an opponent's build with an
all-table-card staging stack keeps the build's value and freezes it, but
ownership stays with the opponent (owner 1) although the acting player is
player 0 — contradicting the claim that the resulting build is owned by the
reinforcing player. -/
theorem reinforce_ownership_counterexample :
    stateOppBuild.currentPlayer = 0
      ∧ (handleReinforceOpponentBuildWithStack stateOppBuild stackSeven
          oppBuildSeven).tableCards
        = [.build { buildId := 11, value := 7,
                    cards := [⟨.seven, .clubs⟩, ⟨.three, .hearts⟩,
                      ⟨.four, .spades⟩],
                    owner := 1, isExtendable := false }] := by
  decide

/-- C5 (amended): every reinforcement keeps the build's numeric value and
sets isExtendable to false; reinforcing via handleReinforceBuildWithStack
transfers ownership to the acting player, playing an equal-value card on a
build keeps that build's recorded owner, while
handleReinforceOpponentBuildWithStack leaves ownership with the opponent. -/
theorem reinforcement_spec :
    (∀ (s : GameState) (stack : StackData) (targetBuild : BuildData),
      ∃ bd : BuildData,
        (handleReinforceBuildWithStack s stack targetBuild).tableCards
            = removeCardsFromTable s.tableCards
                [.build targetBuild, .stack stack] ++ [.build bd]
          ∧ bd.value = targetBuild.value ∧ bd.isExtendable = false
          ∧ bd.owner = s.currentPlayer)
    ∧ (∀ (s : GameState) (stack : StackData) (opponentBuild : BuildData),
      ∃ bd : BuildData,
        (handleReinforceOpponentBuildWithStack s stack opponentBuild).tableCards
            = removeCardsFromTable s.tableCards
                [.build opponentBuild, .stack stack] ++ [.build bd]
          ∧ bd.value = opponentBuild.value ∧ bd.isExtendable = false
          ∧ bd.owner = opponentBuild.owner)
    ∧ (∀ (s : GameState) (playerCard : Card) (b : BuildData)
        (pr : List Card × Card),
      removeFirstCard (handOf s s.currentPlayer) playerCard = some pr →
      rankValue playerCard.rank = b.value →
        ∃ bd : BuildData,
          (handleAddToOwnBuild s playerCard b).tableCards
              = (s.tableCards.filter fun e =>
                  match e with
                  | .build b2 => b2.buildId != b.buildId
                  | _ => true) ++ [.build bd]
            ∧ bd.value = b.value ∧ bd.isExtendable = false
            ∧ bd.owner = b.owner) := by
  refine ⟨?_, ?_, ?_⟩
  · intro s stack targetBuild
    refine ⟨{ buildId := generateBuildId, value := targetBuild.value,
              cards := targetBuild.cards ++ stack.cards.map (fun c => c.card),
              owner := s.currentPlayer, isExtendable := false },
      ?_, rfl, rfl, rfl⟩
    simp [handleReinforceBuildWithStack]
  · intro s stack opponentBuild
    refine ⟨{ opponentBuild with
                cards := opponentBuild.cards
                  ++ stack.cards.map (fun c => c.card),
                isExtendable := false }, ?_, rfl, rfl, rfl⟩
    simp [handleReinforceOpponentBuildWithStack]
  · intro s playerCard b pr hrem hval
    refine ⟨{ b with
                value := b.value,
                cards := b.cards ++ [playerCard],
                isExtendable := false }, ?_, rfl, rfl, rfl⟩
    have hre : (rankValue playerCard.rank == b.value) = true := by
      simp [hval]
    simp only [handleAddToOwnBuild, hre, hrem]
    simp [hval]

theorem reinforcement_spec_witness :
    removeFirstCard (handOf stateSelfBuild stateSelfBuild.currentPlayer)
        ⟨.seven, .diamonds⟩ = some ([⟨.seven, .spades⟩], ⟨.seven, .diamonds⟩)
      ∧ rankValue (⟨.seven, .diamonds⟩ : Card).rank = ownBuildSeven.value
      ∧ ∃ bd : BuildData,
        (handleAddToOwnBuild stateSelfBuild ⟨.seven, .diamonds⟩
            ownBuildSeven).tableCards
            = (stateSelfBuild.tableCards.filter fun e =>
                match e with
                | .build b2 => b2.buildId != ownBuildSeven.buildId
                | _ => true) ++ [.build bd]
          ∧ bd.value = ownBuildSeven.value ∧ bd.isExtendable = false
          ∧ bd.owner = ownBuildSeven.owner :=
  ⟨by decide, by decide,
    reinforcement_spec.2.2 stateSelfBuild ⟨.seven, .diamonds⟩ ownBuildSeven
      ([⟨.seven, .spades⟩], ⟨.seven, .diamonds⟩) (by decide) (by decide)⟩

/-- C6: finalizing a temporary staging stack yields exactly one of three
outcomes: with exactly one candidate build value the build is applied
automatically and the turn ends (currentPlayer flips); with more than one
candidate the full candidate set is returned to the caller for
disambiguation and the game state is untouched; with no candidate the stack
is disbanded — handleDisbandStagingStack returns its cards to their original
zones — and the turn ends. -/
theorem finalize_trichotomy_spec (s : GameState) (stack : StackData) :
    (∀ v : Nat,
      findPossibleBuildsFromStack stack (handOf s s.currentPlayer)
          s.tableCards s.currentPlayer = [v] →
        ∃ s2 : GameState,
          finalizeStagingStackAction s stack = .applied s2
            ∧ s2.currentPlayer = 1 - s.currentPlayer
            ∧ s2.tableCards
              = (s.tableCards.filter fun e =>
                  match e with
                  | .stack st => st.stackId != stack.stackId
                  | _ => true)
                ++ [.build ⟨generateBuildId, v,
                    stack.cards.map (fun c => c.card), s.currentPlayer, true⟩])
    ∧ (1 < (findPossibleBuildsFromStack stack (handOf s s.currentPlayer)
          s.tableCards s.currentPlayer).length →
        finalizeStagingStackAction s stack
          = .needsChoice (findPossibleBuildsFromStack stack
              (handOf s s.currentPlayer) s.tableCards s.currentPlayer))
    ∧ (findPossibleBuildsFromStack stack (handOf s s.currentPlayer)
          s.tableCards s.currentPlayer = [] →
        finalizeStagingStackAction s stack
            = .disbanded (handleDisbandStagingStack s stack)
          ∧ (handleDisbandStagingStack s stack).currentPlayer
            = 1 - s.currentPlayer) := by
  refine ⟨?_, ?_, ?_⟩
  · intro v hv
    refine ⟨nextPlayer { s with tableCards :=
        (s.tableCards.filter fun e =>
          match e with
          | .stack st => st.stackId != stack.stackId
          | _ => true)
        ++ [.build ⟨generateBuildId, v, stack.cards.map (fun c => c.card),
            s.currentPlayer, true⟩] }, ?_, by simp, by simp⟩
    simp [finalizeStagingStackAction, handleFinalizeStagingStack, hv]
  · intro hlen
    rcases hfp : findPossibleBuildsFromStack stack (handOf s s.currentPlayer)
        s.tableCards s.currentPlayer with _ | ⟨a, rest⟩
    · rw [hfp] at hlen
      simp at hlen
    · rw [hfp] at hlen
      have h0 : 0 < rest.length := by
        simp at hlen
        omega
      simp only [finalizeStagingStackAction, handleFinalizeStagingStack, hfp]
      simp [h0]
  · intro hv
    constructor
    · simp [finalizeStagingStackAction, handleFinalizeStagingStack, hv]
    · simp [handleDisbandStagingStack]

theorem finalize_trichotomy_spec_witness :
    findPossibleBuildsFromStack stagingStackMixed
        (handOf stateWithStack stateWithStack.currentPlayer)
        stateWithStack.tableCards stateWithStack.currentPlayer = []
      ∧ finalizeStagingStackAction stateWithStack stagingStackMixed
          = .disbanded (handleDisbandStagingStack stateWithStack
              stagingStackMixed)
      ∧ (handleDisbandStagingStack stateWithStack stagingStackMixed).currentPlayer
        = 1 - stateWithStack.currentPlayer :=
  ⟨by decide,
    ((finalize_trichotomy_spec stateWithStack stagingStackMixed).2.2
      (by decide)).1,
    ((finalize_trichotomy_spec stateWithStack stagingStackMixed).2.2
      (by decide)).2⟩

/-! ### Conservation infrastructure -/

theorem matchesEntity_iff {t i : TableEntity} :
    matchesEntity t i = true ↔ entityKey t = entityKey i := by
  simp [matchesEntity]

theorem nodup_key_inj {l : List TableEntity} (hl : (l.map entityKey).Nodup) :
    ∀ a ∈ l, ∀ b ∈ l, entityKey a = entityKey b → a = b := by
  induction l with
  | nil => intro a ha; simp at ha
  | cons x xs ih =>
    intro a ha b hb hk
    rw [List.map_cons, List.nodup_cons] at hl
    obtain ⟨hx, hxs⟩ := hl
    rcases List.mem_cons.mp ha with rfl | ha2
    · rcases List.mem_cons.mp hb with rfl | hb2
      · rfl
      · exact absurd (by rw [hk]; exact List.mem_map_of_mem entityKey hb2) hx
    · rcases List.mem_cons.mp hb with rfl | hb2
      · exact absurd (by rw [← hk]; exact List.mem_map_of_mem entityKey ha2) hx
      · exact ih hxs a ha2 b hb2 hk

theorem removeCardsFromTable_perm (table items : List TableEntity)
    (hsub : ∀ i ∈ items, i ∈ table)
    (hti : (table.map entityKey).Nodup)
    (hii : (items.map entityKey).Nodup) :
    List.Perm table (removeCardsFromTable table items ++ items) := by
  have htn : table.Nodup := hti.of_map
  have hin : items.Nodup := hii.of_map
  have hq : ∀ t ∈ table,
      ((items.any fun i => matchesEntity t i) = true ↔ t ∈ items) := by
    intro t ht
    constructor
    · intro h
      obtain ⟨i, hi, hmi⟩ := List.any_eq_true.mp h
      have heq : t = i :=
        nodup_key_inj hti t ht i (hsub i hi) (matchesEntity_iff.mp hmi)
      rw [heq]
      exact hi
    · intro h
      exact List.any_eq_true.mpr ⟨t, h, matchesEntity_iff.mpr rfl⟩
  have hperm1 : List.Perm
      (table.filter fun t => items.any fun i => matchesEntity t i) items := by
    have h1 : (table.filter fun t =>
        items.any fun i => matchesEntity t i).Nodup := htn.filter _
    refine (h1.subperm ?_).antisymm (hin.subperm ?_)
    · intro t ht
      have h2 := List.mem_filter.mp ht
      exact (hq t h2.1).mp h2.2
    · intro i hi
      exact List.mem_filter.mpr ⟨hsub i hi, (hq i (hsub i hi)).mpr hi⟩
  have hsplit := List.filter_append_perm
    (fun t => items.any fun i => matchesEntity t i) table
  exact hsplit.symm.trans
    ((hperm1.append_right _).trans List.perm_append_comm)

theorem removeCardsFromTable_cards (table items : List TableEntity)
    (hsub : ∀ i ∈ items, i ∈ table)
    (hti : (table.map entityKey).Nodup)
    (hii : (items.map entityKey).Nodup) :
    (table.flatMap entityCards : Multiset Card)
      = ↑((removeCardsFromTable table items).flatMap entityCards)
        + ↑(items.flatMap entityCards) := by
  have hperm := removeCardsFromTable_perm table items hsub hti hii
  have h2 : List.Perm (table.flatMap entityCards)
      ((removeCardsFromTable table items ++ items).flatMap entityCards) :=
    hperm.flatMap_right entityCards
  rw [Multiset.coe_eq_coe.mpr h2, List.flatMap_append]
  rfl

theorem stackFilter_eq_remove (table : List TableEntity) (st : StackData) :
    (table.filter fun e =>
      match e with
      | .stack s2 => s2.stackId != st.stackId
      | _ => true) = removeCardsFromTable table [.stack st] := by
  rw [removeCardsFromTable]
  apply List.filter_congr
  intro e _
  cases e with
  | loose c => simp [matchesEntity, entityKey]
  | build b => simp [matchesEntity, entityKey]
  | stack s2 =>
    simp only [matchesEntity, entityKey, bne]
    congr 1
    rw [Bool.eq_iff_iff]
    simp

theorem set_cards_multiset (table : List TableEntity) (i : Nat)
    (hi : i < table.length) (x : TableEntity) :
    ((table.set i x).flatMap entityCards : Multiset Card)
        + ↑(entityCards table[i])
      = ↑(table.flatMap entityCards) + ↑(entityCards x) := by
  have hdecomp : table = table.take i ++ table[i] :: table.drop (i + 1) := by
    conv_lhs => rw [← List.take_append_drop i table]
    rw [← List.get_drop_eq_drop table i hi]
  rw [List.set_eq_take_cons_drop x hi]
  conv_rhs => rw [hdecomp]
  simp only [List.flatMap_append, List.flatMap_cons]
  simp only [← Multiset.coe_add]
  abel

theorem splitBySource_cards (cards : List TaggedCard) :
    ((splitBySource cards).1 : Multiset Card) + ↑(splitBySource cards).2.1
        + ↑(splitBySource cards).2.2
      = ↑(cards.map fun c => c.card) := by
  induction cards with
  | nil => rfl
  | cons c cs ih =>
    cases hc : c.source <;>
      simp only [splitBySource, hc, List.map_cons, ← Multiset.cons_coe,
        Multiset.cons_add, Multiset.add_cons] <;>
      rw [← ih] <;> abel

theorem restoreOpponentCaps_flatten (caps : List (List Card))
    (opp : List Card) :
    ((restoreOpponentCaps caps opp).flatten : Multiset Card)
      = ↑caps.flatten + ↑opp := by
  rw [restoreOpponentCaps]
  split_ifs with h1 h2
  · rw [List.isEmpty_iff.mp h1]
    simp
  · rw [List.isEmpty_iff.mp h2]
    simp
  · have hne : caps ≠ [] := by
      intro h
      rw [h] at h2
      simp at h2
    conv_rhs => rw [← List.dropLast_append_getLast hne]
    rw [List.getLastD_eq_getLast? , List.getLast?_eq_getLast caps hne]
    simp only [List.flatten_append, Option.getD_some, List.flatten_cons,
      List.flatten_nil, List.append_nil, ← Multiset.coe_add]
    abel

theorem sweepEntityCards_eq : sweepEntityCards = entityCards := by
  funext e
  cases e <;> rfl

theorem stateCards_def (s : GameState) :
    stateCards s = (s.hand0 : Multiset Card) + ↑s.hand1
      + ↑(s.tableCards.flatMap entityCards) + ↑s.captures0.flatten
      + ↑s.captures1.flatten + ↑s.deck := rfl

theorem trail_conserves (s : GameState) (card : Card)
    (hcp : s.currentPlayer ≤ 1) :
    stateCards (handleTrail s card) = stateCards s := by
  rw [handleTrail]
  cases hrem : removeFirstCard (handOf s s.currentPlayer) card with
  | none => rfl
  | some pr =>
    obtain ⟨h2, rc⟩ := pr
    obtain ⟨rfl, hperm⟩ := removeFirstCard_some hrem
    have hms : (handOf s s.currentPlayer : Multiset Card) = {rc} + ↑h2 := by
      rw [Multiset.coe_eq_coe.mpr hperm]
      rfl
    show stateCards (nextPlayer { setHand s s.currentPlayer h2 with
      tableCards := s.tableCards ++ [TableEntity.loose rc] }) = stateCards s
    rcases Nat.le_one_iff_eq_zero_or_eq_one.mp hcp with h0 | h0
    · rw [h0] at hms
      rw [h0]
      rw [show handOf s 0 = s.hand0 from rfl] at hms
      rw [show setHand s 0 h2 = { s with hand0 := h2 } from rfl]
      simp only [stateCards_def, nextPlayer, List.flatMap_append,
        List.flatMap_cons, List.flatMap_nil, entityCards, List.append_nil]
      simp only [← Multiset.coe_add, Multiset.coe_singleton]
      rw [hms]
      abel
    · rw [h0] at hms
      rw [h0]
      rw [show handOf s 1 = s.hand1 from rfl] at hms
      rw [show setHand s 1 h2 = { s with hand1 := h2 } from rfl]
      simp only [stateCards_def, nextPlayer, List.flatMap_append,
        List.flatMap_cons, List.flatMap_nil, entityCards, List.append_nil]
      simp only [← Multiset.coe_add, Multiset.coe_singleton]
      rw [hms]
      abel

theorem pair_items_sub {s : GameState} {b : BuildData} {stack : StackData}
    (hb : TableEntity.build b ∈ s.tableCards)
    (hst : TableEntity.stack stack ∈ s.tableCards) :
    ∀ i ∈ [TableEntity.build b, TableEntity.stack stack], i ∈ s.tableCards := by
  intro i hi
  rcases List.mem_cons.mp hi with rfl | hi2
  · exact hb
  · rcases List.mem_cons.mp hi2 with rfl | hi3
    · exact hst
    · simp at hi3

theorem pair_items_nodup (b : BuildData) (stack : StackData) :
    (([TableEntity.build b, TableEntity.stack stack]).map entityKey).Nodup := by
  simp [entityKey]

theorem merge_conserves (s : GameState) (stack : StackData) (b : BuildData)
    (hst : TableEntity.stack stack ∈ s.tableCards)
    (hb : TableEntity.build b ∈ s.tableCards)
    (hnd : (s.tableCards.map entityKey).Nodup) :
    stateCards (handleMergeIntoOwnBuild s stack b) = stateCards s := by
  have hcards := removeCardsFromTable_cards s.tableCards
    [.build b, .stack stack] (pair_items_sub hb hst) hnd (pair_items_nodup b stack)
  simp only [List.flatMap_cons, List.flatMap_nil, entityCards,
    List.append_nil, ← Multiset.coe_add] at hcards
  show stateCards { s with
      tableCards :=
        removeCardsFromTable s.tableCards [.build b, .stack stack]
          ++ [.build { b with
                cards := b.cards ++ stack.cards.map (fun c => c.card) }] }
    = stateCards s
  simp only [stateCards_def, List.flatMap_append, List.flatMap_cons,
    List.flatMap_nil, entityCards, List.append_nil]
  simp only [← Multiset.coe_add, Multiset.coe_singleton]
  rw [hcards]

theorem reinforce_conserves (s : GameState) (stack : StackData) (b : BuildData)
    (hst : TableEntity.stack stack ∈ s.tableCards)
    (hb : TableEntity.build b ∈ s.tableCards)
    (hnd : (s.tableCards.map entityKey).Nodup) :
    stateCards (handleReinforceBuildWithStack s stack b) = stateCards s := by
  have hcards := removeCardsFromTable_cards s.tableCards
    [.build b, .stack stack] (pair_items_sub hb hst) hnd (pair_items_nodup b stack)
  simp only [List.flatMap_cons, List.flatMap_nil, entityCards,
    List.append_nil, ← Multiset.coe_add] at hcards
  show stateCards (nextPlayer { s with
      tableCards :=
        removeCardsFromTable s.tableCards [.build b, .stack stack]
          ++ [.build { buildId := generateBuildId, value := b.value,
                       cards := b.cards ++ stack.cards.map (fun c => c.card),
                       owner := s.currentPlayer, isExtendable := false }] })
    = stateCards s
  simp only [stateCards_def, nextPlayer, List.flatMap_append,
    List.flatMap_cons, List.flatMap_nil, entityCards, List.append_nil]
  simp only [← Multiset.coe_add, Multiset.coe_singleton]
  rw [hcards]

theorem reinforceOpponent_conserves (s : GameState) (stack : StackData)
    (b : BuildData)
    (hst : TableEntity.stack stack ∈ s.tableCards)
    (hb : TableEntity.build b ∈ s.tableCards)
    (hnd : (s.tableCards.map entityKey).Nodup) :
    stateCards (handleReinforceOpponentBuildWithStack s stack b)
      = stateCards s := by
  have hcards := removeCardsFromTable_cards s.tableCards
    [.build b, .stack stack] (pair_items_sub hb hst) hnd (pair_items_nodup b stack)
  simp only [List.flatMap_cons, List.flatMap_nil, entityCards,
    List.append_nil, ← Multiset.coe_add] at hcards
  show stateCards { s with
      tableCards :=
        removeCardsFromTable s.tableCards [.build b, .stack stack]
          ++ [.build { b with
                cards := b.cards ++ stack.cards.map (fun c => c.card),
                isExtendable := false }] }
    = stateCards s
  simp only [stateCards_def, List.flatMap_append, List.flatMap_cons,
    List.flatMap_nil, entityCards, List.append_nil]
  simp only [← Multiset.coe_add, Multiset.coe_singleton]
  rw [hcards]

theorem single_stack_cards (table : List TableEntity) (st : StackData)
    (hst : TableEntity.stack st ∈ table)
    (hnd : (table.map entityKey).Nodup) :
    (table.flatMap entityCards : Multiset Card)
      = ↑((table.filter fun e =>
          match e with
          | .stack s2 => s2.stackId != st.stackId
          | _ => true).flatMap entityCards)
        + ↑(st.cards.map fun c => c.card) := by
  have hcards := removeCardsFromTable_cards table [.stack st]
    (by intro i hi; rcases List.mem_cons.mp hi with rfl | hi2
        · exact hst
        · simp at hi2)
    hnd (by simp)
  rw [stackFilter_eq_remove table st]
  simp only [List.flatMap_cons, List.flatMap_nil, entityCards,
    List.append_nil] at hcards
  exact hcards

theorem finalize_conserves (s : GameState) (stack : StackData)
    (hst : TableEntity.stack stack ∈ s.tableCards)
    (hnd : (s.tableCards.map entityKey).Nodup) :
    stateCards (step s (.finalizeStagingStack stack)) = stateCards s := by
  rw [step, handleFinalizeStagingStack]
  split_ifs with h1 h2
  · rfl
  · rfl
  · have hcards := single_stack_cards s.tableCards stack hst hnd
    show stateCards (nextPlayer { s with
        tableCards :=
          (s.tableCards.filter fun e =>
            match e with
            | .stack st2 => st2.stackId != stack.stackId
            | _ => true)
          ++ [.build { buildId := generateBuildId,
                       value := (findPossibleBuildsFromStack stack
                         (handOf s s.currentPlayer) s.tableCards
                         s.currentPlayer).headD 0,
                       cards := stack.cards.map (fun c => c.card),
                       owner := s.currentPlayer, isExtendable := true }] })
      = stateCards s
    simp only [stateCards_def, nextPlayer, List.flatMap_append,
      List.flatMap_cons, List.flatMap_nil, entityCards, List.append_nil]
    simp only [← Multiset.coe_add, Multiset.coe_singleton]
    rw [hcards]

theorem sweep_conserves (s : GameState)
    (hns : ∀ e ∈ s.tableCards, isStackEntity e = false) :
    stateCards (handleSweep s) = stateCards s := by
  rw [handleSweep]
  cases hlc : s.lastCapturer with
  | none => rfl
  | some p =>
    split_ifs with h1
    · rfl
    · show stateCards { setCaps s p
          (capsOf s p ++ [s.tableCards.flatMap sweepEntityCards]) with
            tableCards := [] } = stateCards s
      rw [sweepEntityCards_eq]
      by_cases hp : p == 0
      · rw [show (setCaps s p (capsOf s p ++ [s.tableCards.flatMap entityCards]))
            = { s with captures0 :=
                s.captures0 ++ [s.tableCards.flatMap entityCards] } from by
          simp [setCaps, capsOf, hp]]
        simp only [stateCards_def, List.flatten_append, List.flatten_cons,
          List.flatten_nil, List.append_nil]
        simp only [← Multiset.coe_add, Multiset.coe_singleton,
          Multiset.coe_nil, add_zero, zero_add]
        abel
      · rw [show (setCaps s p (capsOf s p ++ [s.tableCards.flatMap entityCards]))
            = { s with captures1 :=
                s.captures1 ++ [s.tableCards.flatMap entityCards] } from by
          simp [setCaps, capsOf, hp]]
        simp only [stateCards_def, List.flatten_append, List.flatten_cons,
          List.flatten_nil, List.append_nil]
        simp only [← Multiset.coe_add, Multiset.coe_singleton,
          Multiset.coe_nil, add_zero, zero_add]
        abel

theorem add_shuffle_cancel {α : Type} (a1 a2 a3 d h0 h1 t c0 c1 : Multiset α)
    (h : a1 + a2 + a3 = d + h0 + h1) :
    a2 + a3 + t + c0 + c1 + a1 = h0 + h1 + t + c0 + c1 + d := by
  calc a2 + a3 + t + c0 + c1 + a1 = a1 + a2 + a3 + (t + c0 + c1) := by abel
    _ = d + h0 + h1 + (t + c0 + c1) := by rw [h]
    _ = h0 + h1 + t + c0 + c1 + d := by abel

theorem roundDeal_conserves (s : GameState) :
    stateCards (startNextRound s) = stateCards s := by
  rw [startNextRound]
  split_ifs with h1
  · rfl
  · obtain ⟨-, -, -, hms⟩ :=
      dealLoop_spec 10 s.deck s.hand0 s.hand1 (by omega)
    simp only [stateCards_def]
    exact add_shuffle_cancel _ _ _ _ _ _ _ _ _ hms
theorem loose_flatMap (l : List Card) :
    (l.map TableEntity.loose).flatMap entityCards = l := by
  induction l with
  | nil => rfl
  | cons c cs ih => simp [entityCards, ih]

theorem cancel_conserves (s : GameState) (st : StackData)
    (hst : TableEntity.stack st ∈ s.tableCards)
    (hnd : (s.tableCards.map entityKey).Nodup)
    (hcp : s.currentPlayer ≤ 1) :
    stateCards (handleCancelStagingStack s st) = stateCards s := by
  have hsplit := splitBySource_cards st.cards
  have htable := single_stack_cards s.tableCards st hst hnd
  show stateCards { setCaps
      (setHand s s.currentPlayer
        (handOf s s.currentPlayer ++ (splitBySource st.cards).1))
      (1 - s.currentPlayer)
      (restoreOpponentCaps
        (capsOf (setHand s s.currentPlayer
          (handOf s s.currentPlayer ++ (splitBySource st.cards).1))
          (1 - s.currentPlayer))
        (splitBySource st.cards).2.2) with
    tableCards := (s.tableCards.filter fun e =>
        match e with
        | .stack s2 => s2.stackId != st.stackId
        | _ => true) ++ (splitBySource st.cards).2.1.map TableEntity.loose }
    = stateCards s
  rcases Nat.le_one_iff_eq_zero_or_eq_one.mp hcp with h0 | h0
  · rw [h0]
    show stateCards { s with
        hand0 := s.hand0 ++ (splitBySource st.cards).1
        captures1 := restoreOpponentCaps s.captures1 (splitBySource st.cards).2.2
        tableCards := (s.tableCards.filter fun e =>
            match e with
            | .stack s2 => s2.stackId != st.stackId
            | _ => true) ++ (splitBySource st.cards).2.1.map TableEntity.loose }
      = stateCards s
    simp only [stateCards_def, List.flatMap_append, loose_flatMap]
    simp only [← Multiset.coe_add]
    rw [restoreOpponentCaps_flatten, htable, ← hsplit]
    abel
  · rw [h0]
    show stateCards { s with
        hand1 := s.hand1 ++ (splitBySource st.cards).1
        captures0 := restoreOpponentCaps s.captures0 (splitBySource st.cards).2.2
        tableCards := (s.tableCards.filter fun e =>
            match e with
            | .stack s2 => s2.stackId != st.stackId
            | _ => true) ++ (splitBySource st.cards).2.1.map TableEntity.loose }
      = stateCards s
    simp only [stateCards_def, List.flatMap_append, loose_flatMap]
    simp only [← Multiset.coe_add]
    rw [restoreOpponentCaps_flatten, htable, ← hsplit]
    abel

theorem disband_conserves (s : GameState) (st : StackData)
    (hst : TableEntity.stack st ∈ s.tableCards)
    (hnd : (s.tableCards.map entityKey).Nodup)
    (hcp : s.currentPlayer ≤ 1) :
    stateCards (handleDisbandStagingStack s st) = stateCards s := by
  have hsplit := splitBySource_cards st.cards
  have htable := single_stack_cards s.tableCards st hst hnd
  show stateCards (nextPlayer { setCaps
      (setHand s s.currentPlayer
        (handOf s s.currentPlayer ++ (splitBySource st.cards).1))
      (1 - s.currentPlayer)
      (restoreOpponentCaps
        (capsOf (setHand s s.currentPlayer
          (handOf s s.currentPlayer ++ (splitBySource st.cards).1))
          (1 - s.currentPlayer))
        (splitBySource st.cards).2.2) with
    tableCards := (s.tableCards.filter fun e =>
        match e with
        | .stack s2 => s2.stackId != st.stackId
        | _ => true) ++ (splitBySource st.cards).2.1.map TableEntity.loose })
    = stateCards s
  rcases Nat.le_one_iff_eq_zero_or_eq_one.mp hcp with h0 | h0
  · rw [h0]
    show stateCards (nextPlayer { s with
        hand0 := s.hand0 ++ (splitBySource st.cards).1
        captures1 := restoreOpponentCaps s.captures1 (splitBySource st.cards).2.2
        tableCards := (s.tableCards.filter fun e =>
            match e with
            | .stack s2 => s2.stackId != st.stackId
            | _ => true) ++ (splitBySource st.cards).2.1.map TableEntity.loose })
      = stateCards s
    simp only [stateCards_def, nextPlayer, List.flatMap_append, loose_flatMap]
    simp only [← Multiset.coe_add]
    rw [restoreOpponentCaps_flatten, htable, ← hsplit]
    abel
  · rw [h0]
    show stateCards (nextPlayer { s with
        hand1 := s.hand1 ++ (splitBySource st.cards).1
        captures0 := restoreOpponentCaps s.captures0 (splitBySource st.cards).2.2
        tableCards := (s.tableCards.filter fun e =>
            match e with
            | .stack s2 => s2.stackId != st.stackId
            | _ => true) ++ (splitBySource st.cards).2.1.map TableEntity.loose })
      = stateCards s
    simp only [stateCards_def, nextPlayer, List.flatMap_append, loose_flatMap]
    simp only [← Multiset.coe_add]
    rw [restoreOpponentCaps_flatten, htable, ← hsplit]
    abel

theorem set_flatMap_cards (table : List TableEntity) (i : Nat)
    (hi : i < table.length) (x : TableEntity) :
    ∃ a b : Multiset Card,
      (table.flatMap entityCards : Multiset Card)
          = a + ↑(entityCards table[i]) + b
        ∧ ((table.set i x).flatMap entityCards : Multiset Card)
          = a + ↑(entityCards x) + b := by
  have hdecomp : table = table.take i ++ table[i] :: table.drop (i + 1) := by
    conv_lhs => rw [← List.take_append_drop i table]
    rw [← List.get_drop_eq_drop table i hi]
  refine ⟨↑((table.take i).flatMap entityCards),
    ↑((table.drop (i + 1)).flatMap entityCards), ?_, ?_⟩
  · conv_lhs => rw [hdecomp]
    simp only [List.flatMap_append, List.flatMap_cons, ← Multiset.coe_add]
    abel
  · rw [List.set_eq_take_cons_drop x hi]
    simp only [List.flatMap_append, List.flatMap_cons, ← Multiset.coe_add]
    abel

theorem createStaging_conserves (s : GameState) (hc tc : Card)
    (hcp : s.currentPlayer ≤ 1) :
    stateCards (handleCreateStagingStack s hc tc) = stateCards s := by
  rw [handleCreateStagingStack]
  split_ifs with h1
  · rfl
  · cases hidx : s.tableCards.findIdx? (fun e =>
        match e with
        | .loose c => sameCard c tc
        | _ => false) with
    | none => rfl
    | some targetIndex =>
      cases hrem : removeFirstCard (handOf s s.currentPlayer) hc with
      | none => rfl
      | some pr =>
        obtain ⟨h2, rc⟩ := pr
        obtain ⟨-, hperm⟩ := removeFirstCard_some hrem
        obtain ⟨hlt, hp, -⟩ := List.findIdx?_eq_some_iff_getElem.mp hidx
        have htc : s.tableCards[targetIndex] = TableEntity.loose tc := by
          cases hgot : s.tableCards[targetIndex] with
          | loose c =>
            rw [hgot] at hp
            have hceq : c = tc := sameCard_iff.mp hp
            rw [hceq]
          | build b =>
            rw [hgot] at hp
            exact Bool.noConfusion hp
          | stack s2 =>
            rw [hgot] at hp
            exact Bool.noConfusion hp
        by_cases hv : rankValue hc.rank < rankValue tc.rank
        · obtain ⟨a, b, hT, hA⟩ := set_flatMap_cards s.tableCards targetIndex hlt
            (.stack { stackId := generateStackId
                      cards := [⟨tc, CardSource.table⟩, ⟨hc, CardSource.hand⟩]
                      owner := s.currentPlayer })
          rw [htc] at hT
          simp only [entityCards, Multiset.coe_singleton] at hT
          simp only [entityCards, List.map_cons, List.map_nil,
            ← Multiset.cons_coe, Multiset.coe_nil, ← Multiset.singleton_add,
            add_zero] at hA
          simp only [if_pos hv]
          rcases Nat.le_one_iff_eq_zero_or_eq_one.mp hcp with h0 | h0
          · have hms : (s.hand0 : Multiset Card) = {hc} + ↑h2 := by
              have hperm2 : List.Perm s.hand0 (hc :: h2) := by
                rw [show s.hand0 = handOf s 0 from rfl, ← h0]
                exact hperm
              rw [Multiset.coe_eq_coe.mpr hperm2]
              rfl
            rw [h0] at hA ⊢
            show stateCards { s with
                hand0 := h2
                tableCards := s.tableCards.set targetIndex
                  (.stack { stackId := generateStackId
                            cards := [⟨tc, CardSource.table⟩, ⟨hc, CardSource.hand⟩]
                            owner := 0 }) }
              = stateCards s
            simp only [stateCards_def]
            rw [hA, hT, hms]
            abel
          · have hms : (s.hand1 : Multiset Card) = {hc} + ↑h2 := by
              have hperm2 : List.Perm s.hand1 (hc :: h2) := by
                rw [show s.hand1 = handOf s 1 from rfl, ← h0]
                exact hperm
              rw [Multiset.coe_eq_coe.mpr hperm2]
              rfl
            rw [h0] at hA ⊢
            show stateCards { s with
                hand1 := h2
                tableCards := s.tableCards.set targetIndex
                  (.stack { stackId := generateStackId
                            cards := [⟨tc, CardSource.table⟩, ⟨hc, CardSource.hand⟩]
                            owner := 1 }) }
              = stateCards s
            simp only [stateCards_def]
            rw [hA, hT, hms]
            abel
        · obtain ⟨a, b, hT, hA⟩ := set_flatMap_cards s.tableCards targetIndex hlt
            (.stack { stackId := generateStackId
                      cards := [⟨hc, CardSource.hand⟩, ⟨tc, CardSource.table⟩]
                      owner := s.currentPlayer })
          rw [htc] at hT
          simp only [entityCards, Multiset.coe_singleton] at hT
          simp only [entityCards, List.map_cons, List.map_nil,
            ← Multiset.cons_coe, Multiset.coe_nil, ← Multiset.singleton_add,
            add_zero] at hA
          simp only [if_neg hv]
          rcases Nat.le_one_iff_eq_zero_or_eq_one.mp hcp with h0 | h0
          · have hms : (s.hand0 : Multiset Card) = {hc} + ↑h2 := by
              have hperm2 : List.Perm s.hand0 (hc :: h2) := by
                rw [show s.hand0 = handOf s 0 from rfl, ← h0]
                exact hperm
              rw [Multiset.coe_eq_coe.mpr hperm2]
              rfl
            rw [h0] at hA ⊢
            show stateCards { s with
                hand0 := h2
                tableCards := s.tableCards.set targetIndex
                  (.stack { stackId := generateStackId
                            cards := [⟨hc, CardSource.hand⟩, ⟨tc, CardSource.table⟩]
                            owner := 0 }) }
              = stateCards s
            simp only [stateCards_def]
            rw [hA, hT, hms]
            abel
          · have hms : (s.hand1 : Multiset Card) = {hc} + ↑h2 := by
              have hperm2 : List.Perm s.hand1 (hc :: h2) := by
                rw [show s.hand1 = handOf s 1 from rfl, ← h0]
                exact hperm
              rw [Multiset.coe_eq_coe.mpr hperm2]
              rfl
            rw [h0] at hA ⊢
            show stateCards { s with
                hand1 := h2
                tableCards := s.tableCards.set targetIndex
                  (.stack { stackId := generateStackId
                            cards := [⟨hc, CardSource.hand⟩, ⟨tc, CardSource.table⟩]
                            owner := 1 }) }
              = stateCards s
            simp only [stateCards_def]
            rw [hA, hT, hms]
            abel

theorem addToStaging_conserves (s : GameState) (hc : Card) (target : StackData)
    (htgt : TableEntity.stack target ∈ s.tableCards)
    (hnd : (s.tableCards.map entityKey).Nodup)
    (hcp : s.currentPlayer ≤ 1) :
    stateCards (handleAddToStagingStack s hc target) = stateCards s := by
  rw [handleAddToStagingStack]
  cases hrem : removeFirstCard (handOf s s.currentPlayer) hc with
  | none => rfl
  | some pr =>
    obtain ⟨h2, rc⟩ := pr
    obtain ⟨-, hperm⟩ := removeFirstCard_some hrem
    cases hidx : s.tableCards.findIdx? (fun e =>
        match e with
        | .stack st => st.stackId == target.stackId
        | _ => false) with
    | none =>
      exfalso
      have hall := List.findIdx?_eq_none_iff.mp hidx (TableEntity.stack target) htgt
      simp at hall
    | some i =>
      obtain ⟨hlt, hp, -⟩ := List.findIdx?_eq_some_iff_getElem.mp hidx
      have heq : s.tableCards[i] = TableEntity.stack target := by
        cases hgot : s.tableCards[i] with
        | loose c =>
          rw [hgot] at hp
          exact Bool.noConfusion hp
        | build b =>
          rw [hgot] at hp
          exact Bool.noConfusion hp
        | stack st2 =>
          have hid : st2.stackId = target.stackId := by
            rw [hgot] at hp
            exact beq_iff_eq.mp hp
          rw [← hgot]
          refine nodup_key_inj hnd (s.tableCards[i]) (List.getElem_mem hlt)
            (TableEntity.stack target) htgt ?_
          rw [hgot]
          simp [entityKey, hid]
      obtain ⟨a, b, hT, hA⟩ := set_flatMap_cards s.tableCards i hlt
        (.stack { target with cards := target.cards ++ [⟨hc, CardSource.hand⟩] })
      rw [heq] at hT
      simp only [entityCards] at hT
      simp only [entityCards, List.map_append, List.map_cons, List.map_nil] at hA
      rw [show ((target.cards.map fun tc => tc.card) ++ [hc] : Multiset Card)
          = ↑(target.cards.map fun tc => tc.card) + {hc} from by
        rw [← Multiset.coe_add]
        rfl] at hA
      show stateCards { setHand s s.currentPlayer h2 with
          tableCards := s.tableCards.set i
            (.stack { target with
              cards := target.cards ++ [⟨hc, CardSource.hand⟩] }) }
        = stateCards s
      rcases Nat.le_one_iff_eq_zero_or_eq_one.mp hcp with h0 | h0
      · have hms : (s.hand0 : Multiset Card) = {hc} + ↑h2 := by
          have hperm2 : List.Perm s.hand0 (hc :: h2) := by
            rw [show s.hand0 = handOf s 0 from rfl, ← h0]
            exact hperm
          rw [Multiset.coe_eq_coe.mpr hperm2]
          rfl
        rw [h0]
        show stateCards { s with
            hand0 := h2
            tableCards := s.tableCards.set i
              (.stack { target with
                cards := target.cards ++ [⟨hc, CardSource.hand⟩] }) }
          = stateCards s
        simp only [stateCards_def]
        rw [hA, hT, hms]
        abel
      · have hms : (s.hand1 : Multiset Card) = {hc} + ↑h2 := by
          have hperm2 : List.Perm s.hand1 (hc :: h2) := by
            rw [show s.hand1 = handOf s 1 from rfl, ← h0]
            exact hperm
          rw [Multiset.coe_eq_coe.mpr hperm2]
          rfl
        rw [h0]
        show stateCards { s with
            hand1 := h2
            tableCards := s.tableCards.set i
              (.stack { target with
                cards := target.cards ++ [⟨hc, CardSource.hand⟩] }) }
          = stateCards s
        simp only [stateCards_def]
        rw [hA, hT, hms]
        abel

theorem build_conserves (s : GameState) (card : Card) (tcb : List Card)
    (v : Nat) (sp : Option (Card × Card))
    (hnd : (s.tableCards.map entityKey).Nodup)
    (hcp : s.currentPlayer ≤ 1)
    (htcb : tcb.Nodup)
    (hmem : ∀ c ∈ tcb, TableEntity.loose c ∈ s.tableCards)
    (hsp : ∀ b sm, sp = some (b, sm) →
      (b ::ₘ sm ::ₘ 0 : Multiset Card) = card ::ₘ (tcb : Multiset Card)) :
    stateCards (handleBuild s card .hand tcb v sp) = stateCards s := by
  simp only [handleBuild]
  split_ifs with h1 h2
  · rfl
  · exact absurd h2 (by decide)
  · cases hrem : removeFirstCard (handOf s s.currentPlayer) card with
    | none => rfl
    | some pr =>
      obtain ⟨uh, rc⟩ := pr
      obtain ⟨-, hperm⟩ := removeFirstCard_some hrem
      have hsub : ∀ it ∈ tcb.map TableEntity.loose, it ∈ s.tableCards := by
        intro it hit
        obtain ⟨c, hc2, rfl⟩ := List.mem_map.mp hit
        exact hmem c hc2
      have hii : ((tcb.map TableEntity.loose).map entityKey).Nodup := by
        rw [List.map_map]
        exact htcb.map fun a b h => EntityKey.loose.inj h
      have hrt := removeCardsFromTable_cards s.tableCards
        (tcb.map TableEntity.loose) hsub hnd hii
      rw [loose_flatMap] at hrt
      cases sp with
      | none =>
        have hsort : ((sortCardsByRank tcb : List Card) : Multiset Card)
            = ↑tcb :=
          Multiset.coe_eq_coe.mpr (List.mergeSort_perm tcb _)
        rcases Nat.le_one_iff_eq_zero_or_eq_one.mp hcp with h0 | h0
        · have hms : (s.hand0 : Multiset Card) = {card} + ↑uh := by
            have hperm2 : List.Perm s.hand0 (card :: uh) := by
              rw [show s.hand0 = handOf s 0 from rfl, ← h0]
              exact hperm
            rw [Multiset.coe_eq_coe.mpr hperm2]
            rfl
          rw [h0]
          show stateCards (nextPlayer { s with
              hand0 := uh
              tableCards :=
                removeCardsFromTable s.tableCards (tcb.map TableEntity.loose)
                  ++ [.build { buildId := generateBuildId, value := v
                               cards := sortCardsByRank tcb ++ [card]
                               owner := 0, isExtendable := true }] })
            = stateCards s
          simp only [stateCards_def, nextPlayer, List.flatMap_append,
            List.flatMap_cons, List.flatMap_nil, entityCards, List.append_nil]
          simp only [← Multiset.coe_add, Multiset.coe_singleton]
          rw [hrt, hsort, hms]
          abel
        · have hms : (s.hand1 : Multiset Card) = {card} + ↑uh := by
            have hperm2 : List.Perm s.hand1 (card :: uh) := by
              rw [show s.hand1 = handOf s 1 from rfl, ← h0]
              exact hperm
            rw [Multiset.coe_eq_coe.mpr hperm2]
            rfl
          rw [h0]
          show stateCards (nextPlayer { s with
              hand1 := uh
              tableCards :=
                removeCardsFromTable s.tableCards (tcb.map TableEntity.loose)
                  ++ [.build { buildId := generateBuildId, value := v
                               cards := sortCardsByRank tcb ++ [card]
                               owner := 1, isExtendable := true }] })
            = stateCards s
          simp only [stateCards_def, nextPlayer, List.flatMap_append,
            List.flatMap_cons, List.flatMap_nil, entityCards, List.append_nil]
          simp only [← Multiset.coe_add, Multiset.coe_singleton]
          rw [hrt, hsort, hms]
          abel
      | some p =>
        obtain ⟨b2, sm⟩ := p
        have hpair : (([b2, sm] : List Card) : Multiset Card)
            = {card} + ↑tcb := by
          rw [show (([b2, sm] : List Card) : Multiset Card)
              = b2 ::ₘ sm ::ₘ 0 from rfl]
          rw [hsp b2 sm rfl, Multiset.singleton_add]
        rcases Nat.le_one_iff_eq_zero_or_eq_one.mp hcp with h0 | h0
        · have hms : (s.hand0 : Multiset Card) = {card} + ↑uh := by
            have hperm2 : List.Perm s.hand0 (card :: uh) := by
              rw [show s.hand0 = handOf s 0 from rfl, ← h0]
              exact hperm
            rw [Multiset.coe_eq_coe.mpr hperm2]
            rfl
          rw [h0]
          show stateCards (nextPlayer { s with
              hand0 := uh
              tableCards :=
                removeCardsFromTable s.tableCards (tcb.map TableEntity.loose)
                  ++ [.build { buildId := generateBuildId, value := v
                               cards := [b2, sm]
                               owner := 0, isExtendable := true }] })
            = stateCards s
          simp only [stateCards_def, nextPlayer, List.flatMap_append,
            List.flatMap_cons, List.flatMap_nil, entityCards, List.append_nil]
          simp only [← Multiset.coe_add, Multiset.coe_singleton]
          rw [hrt, hpair, hms]
          abel
        · have hms : (s.hand1 : Multiset Card) = {card} + ↑uh := by
            have hperm2 : List.Perm s.hand1 (card :: uh) := by
              rw [show s.hand1 = handOf s 1 from rfl, ← h0]
              exact hperm
            rw [Multiset.coe_eq_coe.mpr hperm2]
            rfl
          rw [h0]
          show stateCards (nextPlayer { s with
              hand1 := uh
              tableCards :=
                removeCardsFromTable s.tableCards (tcb.map TableEntity.loose)
                  ++ [.build { buildId := generateBuildId, value := v
                               cards := [b2, sm]
                               owner := 1, isExtendable := true }] })
            = stateCards s
          simp only [stateCards_def, nextPlayer, List.flatMap_append,
            List.flatMap_cons, List.flatMap_nil, entityCards, List.append_nil]
          simp only [← Multiset.coe_add, Multiset.coe_singleton]
          rw [hrt, hpair, hms]
          abel

theorem handOf_nextPlayer (s : GameState) (p : Nat) :
    handOf (nextPlayer s) p = handOf s p := rfl

theorem capsOf_nextPlayer (s : GameState) (p : Nat) :
    capsOf (nextPlayer s) p = capsOf s p := rfl

theorem handOf_withTL (s : GameState) (T : List TableEntity) (L : Option Nat)
    (p : Nat) :
    handOf { s with tableCards := T, lastCapturer := L } p = handOf s p := rfl

theorem capsOf_withTL (s : GameState) (T : List TableEntity) (L : Option Nat)
    (p : Nat) :
    capsOf { s with tableCards := T, lastCapturer := L } p = capsOf s p := rfl

theorem deck_withTL (s : GameState) (T : List TableEntity) (L : Option Nat) :
    ({ s with tableCards := T, lastCapturer := L } : GameState).deck
      = s.deck := rfl

theorem tableCards_withTL (s : GameState) (T : List TableEntity)
    (L : Option Nat) :
    ({ s with tableCards := T, lastCapturer := L } : GameState).tableCards
      = T := rfl

theorem handOf_setHand_flip {p : Nat} (hp : p ≤ 1) (s : GameState)
    (h : List Card) :
    handOf (setHand s p h) (1 - p) = handOf s (1 - p) := by
  rcases Nat.le_one_iff_eq_zero_or_eq_one.mp hp with rfl | rfl <;> rfl

theorem capsOf_setCaps_flipA {p : Nat} (hp : p ≤ 1) (s : GameState)
    (c : List (List Card)) :
    capsOf (setCaps s p c) (1 - p) = capsOf s (1 - p) := by
  rcases Nat.le_one_iff_eq_zero_or_eq_one.mp hp with rfl | rfl <;> rfl

theorem capsOf_setCaps_flipB {p : Nat} (hp : p ≤ 1) (s : GameState)
    (c : List (List Card)) :
    capsOf (setCaps s (1 - p) c) p = capsOf s p := by
  rcases Nat.le_one_iff_eq_zero_or_eq_one.mp hp with rfl | rfl <;> rfl

theorem stateCards_parts (s : GameState) (p : Nat) (hp : p ≤ 1) :
    stateCards s = ↑(handOf s p) + ↑(handOf s (1 - p))
      + ↑(s.tableCards.flatMap entityCards) + ↑(capsOf s p).flatten
      + ↑(capsOf s (1 - p)).flatten + ↑s.deck := by
  rcases Nat.le_one_iff_eq_zero_or_eq_one.mp hp with rfl | rfl
  · rfl
  · rw [stateCards_def]
    show (s.hand0 : Multiset Card) + ↑s.hand1
        + ↑(s.tableCards.flatMap entityCards) + ↑s.captures0.flatten
        + ↑s.captures1.flatten + ↑s.deck
      = ↑s.hand1 + ↑s.hand0 + ↑(s.tableCards.flatMap entityCards)
        + ↑s.captures1.flatten + ↑s.captures0.flatten + ↑s.deck
    abel

theorem flatten_filter_nonempty (l : List (List Card)) :
    (l.filter fun g => !g.isEmpty).flatten = l.flatten := by
  induction l with
  | nil => rfl
  | cons g gs ih =>
    rw [List.filter_cons, List.flatten_cons]
    cases hg : g.isEmpty
    · simp only [Bool.not_false, if_pos]
      rw [List.flatten_cons, ih]
    · rw [List.isEmpty_iff.mp hg]
      simp only [Bool.not_true, Bool.false_eq_true, if_false, ih,
        List.nil_append]

theorem flatten_map_filter (p : Card → Bool) (l : List (List Card)) :
    (l.map fun g => g.filter p).flatten = l.flatten.filter p := by
  induction l with
  | nil => rfl
  | cons g gs ih =>
    simp only [List.map_cons, List.flatten_cons, List.filter_append, ih]

theorem capsRemove_cards (caps : List (List Card)) (oc : Card)
    (hnd : caps.flatten.Nodup) (hmem : oc ∈ caps.flatten) :
    (((caps.map fun group => group.filter fun c =>
        !(c.rank == oc.rank && c.suit == oc.suit)).filter
          fun group => !group.isEmpty).flatten : Multiset Card) + {oc}
      = ↑caps.flatten := by
  rw [flatten_filter_nonempty, flatten_map_filter]
  have hfn : (fun c : Card => !(c.rank == oc.rank && c.suit == oc.suit))
      = fun c => c != oc := by
    funext c
    rw [show (c.rank == oc.rank && c.suit == oc.suit) = sameCard c oc from rfl]
    rw [show (c != oc) = !(c == oc) from rfl]
    congr 1
    rw [Bool.eq_iff_iff, sameCard_iff, beq_iff_eq]
  rw [hfn, ← hnd.erase_eq_filter oc]
  rw [Multiset.coe_eq_coe.mpr (List.perm_cons_erase hmem)]
  rw [← Multiset.cons_coe, ← Multiset.singleton_add]
  exact add_comm _ _

theorem entityItems_map_snd (e : TableEntity) :
    (entityItems e).map (fun it => it.2) = entityCards e := by
  cases e <;> simp [entityItems, entityCards, List.map_map, Function.comp]

theorem flatMap_items_snd (l : List TableEntity) :
    (l.flatMap entityItems).map (fun it => it.2) = l.flatMap entityCards := by
  induction l with
  | nil => rfl
  | cons e es ih =>
    simp only [List.flatMap_cons, List.map_append, entityItems_map_snd, ih]

theorem dedup_filter_cards (l : List (Option CardSource × Card)) (sc : Card)
    (hlen : (l.filter fun it =>
        it.1 == some CardSource.hand && it.2.rank == sc.rank
          && it.2.suit == sc.suit).length = 1) :
    ((l.filter fun it => !(it.1 == some CardSource.hand
        && it.2.rank == sc.rank && it.2.suit == sc.suit)).map
          (fun it => it.2) : Multiset Card) + {sc}
      = ↑(l.map fun it => it.2) := by
  obtain ⟨it0, hit0⟩ := List.length_eq_one.mp hlen
  have hmem0 : it0 ∈ l.filter (fun it =>
      it.1 == some CardSource.hand && it.2.rank == sc.rank
        && it.2.suit == sc.suit) := by
    rw [hit0]
    exact List.mem_singleton_self it0
  have hp := (List.mem_filter.mp hmem0).2
  have hc2 : it0.2 = sc := by
    simp only [Bool.and_eq_true, beq_iff_eq] at hp
    obtain ⟨⟨-, h1⟩, h2⟩ := hp
    exact sameCard_iff.mp (by simp [sameCard, h1, h2])
  have hperm := (List.filter_append_perm (fun it =>
      it.1 == some CardSource.hand && it.2.rank == sc.rank
        && it.2.suit == sc.suit) l).map (fun it => it.2)
  rw [← Multiset.coe_eq_coe.mpr hperm]
  rw [List.map_append, ← Multiset.coe_add, hit0]
  simp only [List.map_cons, List.map_nil, Multiset.coe_singleton, hc2]
  exact add_comm _ _

theorem caps_flatten_nodup (s : GameState)
    (hnodup : (stateCardsList s).Nodup) (p : Nat) :
    (capsOf s p).flatten.Nodup := by
  rw [stateCardsList] at hnodup
  have h01 : s.captures0.flatten.Nodup :=
    (hnodup.of_append_left.of_append_left).of_append_right
  have h11 : s.captures1.flatten.Nodup :=
    hnodup.of_append_left.of_append_right
  rw [capsOf]
  split_ifs
  · exact h01
  · exact h11

theorem captureMain_conserves (s : GameState) (sc : Card)
    (sel : List TableEntity) (oc : Option Card)
    (hcp : s.currentPlayer ≤ 1)
    (hnd : (s.tableCards.map entityKey).Nodup)
    (hsub : ∀ e ∈ sel, e ∈ s.tableCards)
    (hselnd : (sel.map entityKey).Nodup)
    (hoc : ∀ c, oc = some c → c ∈ (capsOf s (1 - s.currentPlayer)).flatten)
    (hocnd : (capsOf s (1 - s.currentPlayer)).flatten.Nodup)
    (hfin : (sel.any fun e =>
        match e with | .stack _ => true | _ => false) = true →
      ((sel.flatMap entityItems).filter fun it =>
        it.1 == some CardSource.hand && it.2.rank == sc.rank
          && it.2.suit == sc.suit).length = 1) :
    stateCards (handleCaptureMain s sc .hand sel oc) = stateCards s := by
  have hT : (s.tableCards.flatMap entityCards : Multiset Card)
      = ↑((s.tableCards.filter fun item =>
          !(sel.any fun cap => matchesEntity item cap)).flatMap entityCards)
        + ↑(sel.flatMap entityCards) :=
    removeCardsFromTable_cards s.tableCards sel hsub hnd hselnd
  simp only [handleCaptureMain]
  split
  · rfl
  · rename_i s1 newTable actual heq
    split at heq
    · rename_i hc1
      exact absurd hc1 (by decide)
    · split at heq
      · rename_i hfs
        simp only [Option.some.injEq, Prod.mk.injEq] at heq
        obtain ⟨rfl, rfl, rfl⟩ := heq
        rw [if_pos hfs]
        rw [if_neg (show ¬((CardSource.hand == CardSource.table) = true)
          from by decide)]
        rw [if_pos (show (CardSource.hand == CardSource.hand) = true from rfl)]
        cases oc with
        | none =>
          rw [stateCards_parts _ s.currentPlayer hcp,
            stateCards_parts _ s.currentPlayer hcp]
          simp only [handOf_nextPlayer, capsOf_nextPlayer, nextPlayer_deck,
            nextPlayer_tableCards, handOf_withTL, capsOf_withTL, deck_withTL,
            tableCards_withTL, handOf_setCaps, capsOf_setCaps,
            capsOf_setCaps_flipA hcp, capsOf_setCaps_flipB hcp,
            handOf_setHand, capsOf_setHand]
          simp only [setCaps_deck, setHand_deck]
          simp only [createCaptureStack, Option.toList_none,
            List.flatten_append, List.flatten_cons, List.flatten_nil,
            List.append_nil, ← Multiset.coe_add, Multiset.coe_singleton,
            Multiset.coe_nil, add_zero]
          rw [hT, ← flatMap_items_snd sel,
            ← dedup_filter_cards (sel.flatMap entityItems) sc (hfin hfs)]
          abel
        | some c =>
          have hCA := capsRemove_cards (capsOf s (1 - s.currentPlayer)) c
            hocnd (hoc c rfl)
          rw [stateCards_parts _ s.currentPlayer hcp,
            stateCards_parts _ s.currentPlayer hcp]
          simp only [handOf_nextPlayer, capsOf_nextPlayer, nextPlayer_deck,
            nextPlayer_tableCards, handOf_withTL, capsOf_withTL, deck_withTL,
            tableCards_withTL, handOf_setCaps, capsOf_setCaps,
            capsOf_setCaps_flipA hcp, capsOf_setCaps_flipB hcp,
            handOf_setHand, capsOf_setHand]
          simp only [setCaps_deck, setHand_deck]
          simp only [createCaptureStack, Option.toList_some,
            List.flatten_append, List.flatten_cons, List.flatten_nil,
            List.append_nil, ← Multiset.coe_add, Multiset.coe_singleton,
            Multiset.coe_nil, add_zero]
          rw [hT, ← flatMap_items_snd sel,
            ← dedup_filter_cards (sel.flatMap entityItems) sc (hfin hfs),
            ← hCA]
          abel
      · rename_i hfsn
        split at heq
        · exact Option.noConfusion heq
        · rename_i uh rm hrem
          simp only [Option.some.injEq, Prod.mk.injEq] at heq
          obtain ⟨rfl, rfl, rfl⟩ := heq
          obtain ⟨heqr, hperm⟩ := removeFirstCard_some hrem
          have hH : (handOf s s.currentPlayer : Multiset Card)
              = {sc} + ↑uh := by
            rw [Multiset.coe_eq_coe.mpr hperm, ← Multiset.cons_coe,
              ← Multiset.singleton_add]
          rw [if_neg hfsn]
          rw [if_neg (show ¬((CardSource.hand == CardSource.table) = true)
            from by decide)]
          rw [if_pos (show (CardSource.hand == CardSource.hand) = true
            from rfl)]
          rw [heqr]
          cases oc with
          | none =>
            rw [stateCards_parts _ s.currentPlayer hcp,
              stateCards_parts _ s.currentPlayer hcp]
            simp only [handOf_nextPlayer, capsOf_nextPlayer, nextPlayer_deck,
              nextPlayer_tableCards, handOf_withTL, capsOf_withTL, deck_withTL,
              tableCards_withTL, handOf_setCaps, capsOf_setCaps,
              capsOf_setCaps_flipA hcp, capsOf_setCaps_flipB hcp,
              handOf_setHand, handOf_setHand_flip hcp, capsOf_setHand]
            simp only [setCaps_deck, setHand_deck]
            simp only [createCaptureStack, Option.toList_none,
              List.flatten_append, List.flatten_cons, List.flatten_nil,
              List.append_nil, ← Multiset.coe_add, Multiset.coe_singleton,
              Multiset.coe_nil, add_zero]
            rw [hT, ← flatMap_items_snd sel, hH]
            abel
          | some c =>
            have hCA := capsRemove_cards (capsOf s (1 - s.currentPlayer)) c
              hocnd (hoc c rfl)
            rw [stateCards_parts _ s.currentPlayer hcp,
              stateCards_parts _ s.currentPlayer hcp]
            simp only [handOf_nextPlayer, capsOf_nextPlayer, nextPlayer_deck,
              nextPlayer_tableCards, handOf_withTL, capsOf_withTL, deck_withTL,
              tableCards_withTL, handOf_setCaps, capsOf_setCaps,
              capsOf_setCaps_flipA hcp, capsOf_setCaps_flipB hcp,
              handOf_setHand, handOf_setHand_flip hcp, capsOf_setHand]
            simp only [setCaps_deck, setHand_deck]
            simp only [createCaptureStack, Option.toList_some,
              List.flatten_append, List.flatten_cons, List.flatten_nil,
              List.append_nil, ← Multiset.coe_add, Multiset.coe_singleton,
              Multiset.coe_nil, add_zero]
            rw [hT, ← flatMap_items_snd sel, hH, ← hCA]
            abel

theorem handOf_withT (s : GameState) (T : List TableEntity) (p : Nat) :
    handOf { s with tableCards := T } p = handOf s p := rfl

theorem capsOf_withT (s : GameState) (T : List TableEntity) (p : Nat) :
    capsOf { s with tableCards := T } p = capsOf s p := rfl

theorem deck_withT (s : GameState) (T : List TableEntity) :
    ({ s with tableCards := T } : GameState).deck = s.deck := rfl

theorem tableCards_withT (s : GameState) (T : List TableEntity) :
    ({ s with tableCards := T } : GameState).tableCards = T := rfl

theorem capture_conserves (s : GameState) (sc : Card)
    (sel : List TableEntity) (oc : Option Card)
    (hcp : s.currentPlayer ≤ 1)
    (hnd : (s.tableCards.map entityKey).Nodup)
    (hsub : ∀ e ∈ sel, e ∈ s.tableCards)
    (hselnd : (sel.map entityKey).Nodup)
    (hoc : ∀ c, oc = some c → c ∈ (capsOf s (1 - s.currentPlayer)).flatten)
    (hocnd : (capsOf s (1 - s.currentPlayer)).flatten.Nodup)
    (hfin : (sel.any fun e =>
        match e with | .stack _ => true | _ => false) = true →
      ((sel.flatMap entityItems).filter fun it =>
        it.1 == some CardSource.hand && it.2.rank == sc.rank
          && it.2.suit == sc.suit).length = 1) :
    stateCards (handleCapture s sc .hand sel oc) = stateCards s := by
  simp only [handleCapture]
  split
  · rename_i ownBuild heq
    split_ifs with hpart
    · cases hrem : removeFirstCard (handOf s s.currentPlayer) sc with
      | none => rfl
      | some pr =>
        obtain ⟨uh, rc⟩ := pr
        obtain ⟨-, hperm⟩ := removeFirstCard_some hrem
        have hH : (handOf s s.currentPlayer : Multiset Card)
            = {sc} + ↑uh := by
          rw [Multiset.coe_eq_coe.mpr hperm, ← Multiset.cons_coe,
            ← Multiset.singleton_add]
        split at heq
        · rename_i b hfind
          split at heq
          · rename_i hcond
            simp only [Option.some.injEq] at heq
            subst heq
            simp only [Bool.and_eq_true, Bool.not_eq_eq_eq_not,
              Bool.not_true] at hcond
            obtain ⟨⟨-, -⟩, hNoBuild⟩ := hcond
            have hb : TableEntity.build b ∈ s.tableCards :=
              List.mem_of_find?_eq_some hfind
            have hkeys : ((TableEntity.build b :: sel).map entityKey).Nodup := by
              rw [List.map_cons, List.nodup_cons]
              refine ⟨?_, hselnd⟩
              intro hmem2
              obtain ⟨e, he, hke⟩ := List.mem_map.mp hmem2
              cases e with
              | loose c => exact EntityKey.noConfusion hke
              | stack st => exact EntityKey.noConfusion hke
              | build b2 =>
                have hany : (sel.any fun e =>
                    match e with
                    | TableEntity.build _ => true
                    | _ => false) = true :=
                  List.any_eq_true.mpr ⟨TableEntity.build b2, he, rfl⟩
                rw [hNoBuild] at hany
                exact Bool.noConfusion hany
            have hsub2 : ∀ i ∈ TableEntity.build b :: sel,
                i ∈ s.tableCards := by
              intro i hi
              rcases List.mem_cons.mp hi with rfl | hi2
              · exact hb
              · exact hsub i hi2
            have htable := removeCardsFromTable_cards s.tableCards
              (TableEntity.build b :: sel) hsub2 hnd hkeys
            simp only [List.flatMap_cons, entityCards,
              ← Multiset.coe_add] at htable
            rw [stateCards_parts _ s.currentPlayer hcp,
              stateCards_parts _ s.currentPlayer hcp]
            simp only [handOf_nextPlayer, capsOf_nextPlayer, nextPlayer_deck,
              nextPlayer_tableCards, handOf_withT, capsOf_withT, deck_withT,
              tableCards_withT, handOf_setHand, handOf_setHand_flip hcp,
              capsOf_setHand]
            simp only [setHand_deck]
            simp only [List.flatMap_append, List.flatMap_cons,
              List.flatMap_nil, entityCards, List.append_nil,
              ← Multiset.coe_add, ← Multiset.cons_coe,
              ← Multiset.singleton_add]
            rw [htable, hH]
            abel
          · exact Option.noConfusion heq
        · exact Option.noConfusion heq
    · exact captureMain_conserves s sc sel oc hcp hnd hsub hselnd hoc
        hocnd hfin
  · exact captureMain_conserves s sc sel oc hcp hnd hsub hselnd hoc
      hocnd hfin

/-- C1: every listed action — trail, build, capture, the staging-stack
create/add/cancel/disband/finalize operations, merge, the two stack
reinforcements, the round-2 deal and the end-of-game sweep — preserves the
multiset of all cards across the two hands, the table (loose cards, build
members and stack members), the two capture piles and the deck, for every
well-formed state and action payload: no card is created, destroyed or
duplicated. -/
theorem card_conservation (s : GameState) (a : GAction)
    (hwf : stateWF s) (ha : actionWF s a) :
    stateCards (step s a) = stateCards s := by
  obtain ⟨hcp, hnd, hnodup⟩ := hwf
  cases a with
  | trail c => exact trail_conserves s c hcp
  | build c src tcb v sp =>
    obtain ⟨rfl, h1, h2, h3⟩ := ha
    exact build_conserves s c tcb v sp hnd hcp h1 h2 h3
  | capture c src sel oc2 =>
    obtain ⟨rfl, h1, h2, h3, h4⟩ := ha
    exact capture_conserves s c sel oc2 hcp hnd h1 h2 h3
      (caps_flatten_nodup s hnodup (1 - s.currentPlayer)) h4
  | createStagingStack hc tc => exact createStaging_conserves s hc tc hcp
  | addToStagingStack hc target =>
    exact addToStaging_conserves s hc target ha hnd hcp
  | cancelStagingStack st => exact cancel_conserves s st ha hnd hcp
  | disbandStagingStack st => exact disband_conserves s st ha hnd hcp
  | finalizeStagingStack st => exact finalize_conserves s st ha hnd
  | mergeIntoOwnBuild st b => exact merge_conserves s st b ha.1 ha.2 hnd
  | reinforceBuildWithStack st b =>
    exact reinforce_conserves s st b ha.1 ha.2 hnd
  | reinforceOpponentBuildWithStack st b =>
    exact reinforceOpponent_conserves s st b ha.1 ha.2 hnd
  | roundDeal => exact roundDeal_conserves s
  | sweep => exact sweep_conserves s ha

/-- C1, witness: the conservation theorem applied to a concrete well-formed
state and a trail action. -/
theorem card_conservation_witness :
    stateWF stateRound2Play
      ∧ actionWF stateRound2Play (.trail ⟨Rank.four, Suit.diamonds⟩)
      ∧ stateCards (step stateRound2Play (.trail ⟨Rank.four, Suit.diamonds⟩))
          = stateCards stateRound2Play :=
  ⟨⟨by decide, by decide, by decide⟩, True.intro,
    card_conservation stateRound2Play (.trail ⟨Rank.four, Suit.diamonds⟩)
      ⟨by decide, by decide, by decide⟩ True.intro⟩

end Casino
